import Mathlib

/-!
Verification model of the Eucalypso MIDI FX engine
(`src/src/dsp/eucalypso.c`).

The C file is a single-threaded, allocation-free state machine.  We embed
it shallowly:

* machine integers: C `uint32_t`/`uint64_t` values are `Nat` with explicit
  `% 2^32` where wrap-around can occur; C `int` values are `Int`; a C cast
  `(uint32_t)v` of a signed value is `toU32`;
* the C `double` timing fields are modelled as exact rationals (`ℚ`); a C
  cast `(int)d` (truncation toward zero) is `trunc_q`;
* the fixed-capacity parallel arrays (held notes, voices, register pool)
  are Lean lists with the capacity checks of the C code written out; the
  voice array's three parallel arrays become one list of a `Voice`
  structure, index 0 = oldest voice, as in the C code;
* output buffers `out_msgs[][3]` / `out_lens[]` with their `count` cursor
  become a growing `List OutMsg` whose length plays the role of `count`;
* the JSON parameter (de)serialisation layer, the host glue and
  `set_param`/`get_param` are outside the claims and are not modelled;
  none of the modelled entry points call them.

All definitions are executable; loops of the C code that are not
structurally recursive on a list are given an explicit fuel argument that
is always sufficient at the call sites (noted locally).
-/

/-- `2^32`, the modulus of C `uint32_t` arithmetic. -/
def U32 : Nat := 4294967296

/-- C cast `(uint32_t)v` of a signed `int` value. -/
def toU32 (v : Int) : Nat := (v % (4294967296 : Int)).toNat

/-- C cast `(int)q` of a non-negative-or-negative `double`: truncation toward zero. -/
def trunc_q (q : ℚ) : Int := if 0 ≤ q then ⌊q⌋ else -⌊-q⌋

/-- `clamp_int` from the C source. -/
def clamp_int (v lo hi : Int) : Int :=
  if v < lo then lo else if v > hi then hi else v

/-- `mix_u32` from the C source: the 32-bit avalanche mixing function.
The argument is reduced `% 2^32` on entry, standing for its `uint32_t` type. -/
def mix_u32 (x0 : Nat) : Nat :=
  let x := x0 % U32
  let x := x ^^^ (x >>> 16)
  let x := (x * 0x7feb352d) % U32
  let x := x ^^^ (x >>> 15)
  let x := (x * 0x846ca68b) % U32
  x ^^^ (x >>> 16)

/-- `step_rand_u32` from the C source: the pure seeded step RNG. -/
def step_rand_u32 (seed : Nat) (step : Nat) (salt : Nat) : Nat :=
  let lo := step &&& 0xFFFFFFFF
  let hi := (step >>> 32) &&& 0xFFFFFFFF
  mix_u32 (seed ^^^ lo ^^^ mix_u32 (hi ^^^ salt) ^^^ salt)

/-- `rand_offset_signed` from the C source. -/
def rand_offset_signed (r : Nat) (amount : Int) : Int :=
  if amount ≤ 0 then 0
  else ((r % (amount * 2 + 1).toNat : Nat) : Int) - amount

inductive RateMode where
  | RATE_1_32 | RATE_1_16T | RATE_1_16 | RATE_1_8T | RATE_1_8
  | RATE_1_4T | RATE_1_4 | RATE_1_2 | RATE_1_1
deriving DecidableEq

inductive SyncMode where
  | SYNC_INTERNAL | SYNC_CLOCK
deriving DecidableEq

inductive RegisterMode where
  | REG_HELD | REG_SCALE
deriving DecidableEq

inductive HeldOrderMode where
  | ORDER_UP | ORDER_DOWN | ORDER_PLAYED | ORDER_RAND
deriving DecidableEq

inductive RetriggerMode where
  | RETRIG_RESTART | RETRIG_CONT
deriving DecidableEq

inductive ScaleMode where
  | SCALE_MAJOR | SCALE_NATURAL_MINOR | SCALE_HARMONIC_MINOR | SCALE_MELODIC_MINOR
  | SCALE_DORIAN | SCALE_PHRYGIAN | SCALE_LYDIAN | SCALE_MIXOLYDIAN | SCALE_LOCRIAN
  | SCALE_PENT_MAJOR | SCALE_PENT_MINOR | SCALE_BLUES | SCALE_WHOLE_TONE | SCALE_CHROMATIC
deriving DecidableEq

inductive OctaveRandomRange where
  | OCT_RAND_P1 | OCT_RAND_M1 | OCT_RAND_PM1 | OCT_RAND_P2 | OCT_RAND_M2 | OCT_RAND_PM2
deriving DecidableEq

open RateMode SyncMode RegisterMode HeldOrderMode RetriggerMode ScaleMode OctaveRandomRange

def k_scale_major : List Int := [0, 2, 4, 5, 7, 9, 11]

def k_scale_natural_minor : List Int := [0, 2, 3, 5, 7, 8, 10]

def k_scale_harmonic_minor : List Int := [0, 2, 3, 5, 7, 8, 11]

def k_scale_melodic_minor : List Int := [0, 2, 3, 5, 7, 9, 11]

def k_scale_dorian : List Int := [0, 2, 3, 5, 7, 9, 10]

def k_scale_phrygian : List Int := [0, 1, 3, 5, 7, 8, 10]

def k_scale_lydian : List Int := [0, 2, 4, 6, 7, 9, 11]

def k_scale_mixolydian : List Int := [0, 2, 4, 5, 7, 9, 10]

def k_scale_locrian : List Int := [0, 1, 3, 5, 6, 8, 10]

def k_scale_pent_major : List Int := [0, 2, 4, 7, 9]

def k_scale_pent_minor : List Int := [0, 3, 5, 7, 10]

def k_scale_blues : List Int := [0, 3, 5, 6, 7, 10]

def k_scale_whole_tone : List Int := [0, 2, 4, 6, 8, 10]

def k_scale_chromatic : List Int := [0, 1, 2, 3, 4, 5, 6, 7, 8, 9, 10, 11]

/-- `scale_intervals_for_mode` from the C source (the table together with its
length, which in Lean is just the list). -/
def scale_intervals_for_mode : ScaleMode → List Int
  | SCALE_MAJOR => k_scale_major
  | SCALE_NATURAL_MINOR => k_scale_natural_minor
  | SCALE_HARMONIC_MINOR => k_scale_harmonic_minor
  | SCALE_MELODIC_MINOR => k_scale_melodic_minor
  | SCALE_DORIAN => k_scale_dorian
  | SCALE_PHRYGIAN => k_scale_phrygian
  | SCALE_LYDIAN => k_scale_lydian
  | SCALE_MIXOLYDIAN => k_scale_mixolydian
  | SCALE_LOCRIAN => k_scale_locrian
  | SCALE_PENT_MAJOR => k_scale_pent_major
  | SCALE_PENT_MINOR => k_scale_pent_minor
  | SCALE_BLUES => k_scale_blues
  | SCALE_WHOLE_TONE => k_scale_whole_tone
  | SCALE_CHROMATIC => k_scale_chromatic

/-- `lane_state_t` from the C source. -/
structure LaneState where
  enabled : Bool
  steps : Int
  pulses : Int
  rot : Int
  note_step : Int
  octave : Int
  note_rnd : Int
  seed : Int
  velocity : Int
  gate : Int
  mod_len : Int
  drop : Int
  drop_seed : Int
  swap : Int
  swap_seed : Int
  oct : Int
  oct_seed : Int
  oct_rng : OctaveRandomRange
  vel_rnd : Int
  vel_seed : Int
  gate_rnd : Int
  gate_seed : Int
  time_rnd : Int
  time_seed : Int
  step_cursor : Int
deriving DecidableEq

/-- One in-flight voice: the C `voice_notes[i]`, `voice_clock_left[i]`,
`voice_sample_left[i]` parallel-array entry at index `i`. -/
structure Voice where
  note : Nat
  clock_left : Int
  sample_left : Int
deriving DecidableEq

/-- One emitted MIDI message: `out_msgs[i][0..2]` plus `out_lens[i]`. -/
structure OutMsg where
  b0 : Nat
  b1 : Nat
  b2 : Nat
  len : Nat
deriving DecidableEq

/-- `eucalypso_instance_t` from the C source (the engine-relevant fields;
`chain_params_json` belongs to the excluded parameter layer). -/
structure Engine where
  rate : RateMode
  sync_mode : SyncMode
  register_mode : RegisterMode
  held_order : HeldOrderMode
  scale_mode : ScaleMode
  retrigger_mode : RetriggerMode
  root_note : Int
  octave : Int
  scale_range : Int
  held_order_seed : Int
  rand_cycle : Int
  global_velocity : Int
  global_gate : Int
  global_v_rnd : Int
  global_g_rnd : Int
  global_rnd_seed : Int
  bpm : Int
  swing : Int
  latch : Bool
  max_voices : Int
  lanes : Fin 4 → LaneState
  physical_notes : List Nat
  physical_as_played : List Nat
  note_set_dirty : Bool
  active_notes : List Nat
  as_played : List Nat
  latch_ready_replace : Bool
  phrase_running : Bool
  sample_rate : Int
  timing_dirty : Bool
  step_interval_base : Int
  samples_until_step : Int
  swing_phase : Int
  step_interval_base_f : ℚ
  samples_until_step_f : ℚ
  internal_sample_total : Nat
  clock_counter : Int
  clocks_per_step : Int
  clock_running : Bool
  clock_tick_total : Nat
  pending_step_triggers : Int
  delayed_step_triggers : Int
  midi_transport_active : Bool
  global_step_index : Nat
  voices : List Voice

/-- The insertion scan of `arr_add_sorted`: keep sorted order, drop duplicates. -/
def sorted_insert : List Nat → Nat → List Nat
  | [], n => [n]
  | x :: xs, n =>
    if x = n then x :: xs
    else if x > n then n :: x :: xs
    else x :: sorted_insert xs n

/-- `arr_add_sorted` from the C source (capacity check first, as in C). -/
def arr_add_sorted (l : List Nat) (n : Nat) (maxCount : Nat) : List Nat :=
  if l.length ≥ maxCount then l else sorted_insert l n

/-- `arr_add_tail_unique` from the C source. -/
def arr_add_tail_unique (l : List Nat) (n : Nat) (maxCount : Nat) : List Nat :=
  if l.length ≥ maxCount then l
  else if n ∈ l then l
  else l ++ [n]

/-- `as_played_add` from the C source. -/
def as_played_add (st : Engine) (n : Nat) : Engine :=
  if st.as_played.length ≥ 16 then st
  else if n ∈ st.as_played then st
  else { st with as_played := st.as_played ++ [n] }

/-- `clear_active` from the C source. -/
def clear_active (st : Engine) : Engine :=
  { st with active_notes := [], as_played := [] }

/-- `sync_active_to_physical` from the C source. -/
def sync_active_to_physical (st : Engine) : Engine :=
  let st := clear_active st
  let st := st.physical_notes.foldl
    (fun s n => { s with active_notes := arr_add_sorted s.active_notes n 16 }) st
  st.physical_as_played.foldl
    (fun s n => if n ∈ s.active_notes then as_played_add s n else s) st

/-- `any_enabled_lane` from the C source. -/
def any_enabled_lane (st : Engine) : Bool :=
  (st.lanes 0).enabled || (st.lanes 1).enabled || (st.lanes 2).enabled || (st.lanes 3).enabled

/-- `live_note_count` from the C source. -/
def live_note_count (st : Engine) : Nat :=
  if st.latch then st.active_notes.length else st.physical_notes.length

/-- `reset_lane_runtime` from the C source. -/
def reset_lane_runtime (st : Engine) : Engine :=
  { st with lanes := fun i => { st.lanes i with step_cursor := 0 } }

/-- `reset_phrase` from the C source. -/
def reset_phrase (st : Engine) : Engine :=
  { reset_lane_runtime st with swing_phase := 0 }

/-- `update_phrase_running` from the C source. -/
def update_phrase_running (st : Engine) : Engine :=
  let shouldRun :=
    if st.register_mode = REG_SCALE then any_enabled_lane st = true ∧ 0 < live_note_count st
    else 0 < live_note_count st
  if shouldRun then
    if ¬ st.phrase_running then
      let st := { st with phrase_running := true }
      if st.retrigger_mode = RETRIG_RESTART then reset_phrase st else st
    else st
  else
    if st.phrase_running then
      let st := { st with phrase_running := false }
      if st.retrigger_mode = RETRIG_RESTART then reset_phrase st else st
    else st

/-- `apply_pending_note_set` from the C source. -/
def apply_pending_note_set (st : Engine) : Engine :=
  if st.latch ∨ ¬ st.note_set_dirty then st
  else { sync_active_to_physical st with note_set_dirty := false }

/-- `note_on` from the C source (`vel` is unused there as well). -/
def note_on (st : Engine) (note : Nat) (_vel : Nat) : Engine :=
  let st := { st with
    physical_notes := arr_add_sorted st.physical_notes note 16,
    physical_as_played := arr_add_tail_unique st.physical_as_played note 16 }
  let st :=
    if st.latch then
      let st :=
        if st.latch_ready_replace then
          let st := { clear_active st with latch_ready_replace := false }
          if st.retrigger_mode = RETRIG_RESTART then reset_phrase st else st
        else st
      as_played_add { st with active_notes := arr_add_sorted st.active_notes note 16 } note
    else { st with note_set_dirty := true }
  update_phrase_running st

/-- `note_off` from the C source. -/
def note_off (st : Engine) (note : Nat) : Engine :=
  let st := { st with
    physical_notes := st.physical_notes.erase note,
    physical_as_played := st.physical_as_played.erase note }
  let st :=
    if st.latch then
      if st.physical_notes.length = 0 then { st with latch_ready_replace := true } else st
    else
      if st.physical_notes.length = 0 then { clear_active st with note_set_dirty := false }
      else { st with note_set_dirty := true }
  update_phrase_running st

/-- `rate_beats_per_step` from the C source (the `double` table, exactly). -/
def rate_beats_per_step : RateMode → ℚ
  | RATE_1_32 => 1 / 8
  | RATE_1_16T => 1 / 6
  | RATE_1_16 => 1 / 4
  | RATE_1_8T => 1 / 3
  | RATE_1_8 => 1 / 2
  | RATE_1_4T => 2 / 3
  | RATE_1_4 => 1
  | RATE_1_2 => 2
  | RATE_1_1 => 4

/-- `rate_is_triplet` from the C source. -/
def rate_is_triplet (r : RateMode) : Bool :=
  r = RATE_1_16T || r = RATE_1_8T || r = RATE_1_4T

/-- `recalc_clock_timing` from the C source:
`clocks = (int)(24.0 * beats + 0.5)`, clamped `≥ 1`. -/
def recalc_clock_timing (st : Engine) : Engine :=
  let clocks := trunc_q (24 * rate_beats_per_step st.rate + 1 / 2)
  { st with clocks_per_step := if clocks < 1 then 1 else clocks }

/-- `recalc_timing` from the C source. -/
def recalc_timing (st : Engine) (sampleRate : Int) : Engine :=
  if sampleRate ≤ 0 then st
  else
    let bpm := clamp_int st.bpm 40 240
    let stepSamples : ℚ := ((sampleRate : ℚ) * 60 * rate_beats_per_step st.rate) / (bpm : ℚ)
    let stepSamples := if stepSamples < 1 then 1 else stepSamples
    let base := trunc_q (stepSamples + 1 / 2)
    let base := if base < 1 then 1 else base
    let untilF :=
      if st.samples_until_step_f > stepSamples ∨ st.samples_until_step_f ≤ 0 then stepSamples
      else st.samples_until_step_f
    let untilI := trunc_q (untilF + 1 / 2)
    let untilI := if untilI < 1 then 1 else untilI
    { st with bpm := bpm, sample_rate := sampleRate,
              step_interval_base_f := stepSamples, step_interval_base := base,
              samples_until_step_f := untilF, samples_until_step := untilI,
              timing_dirty := false }

/-- `next_step_interval` from the C source; also returns the engine because
the swing phase alternates. -/
def next_step_interval (st : Engine) : ℚ × Engine :=
  let base : ℚ := if st.step_interval_base_f > 0 then st.step_interval_base_f else 1
  if rate_is_triplet st.rate then (base, st)
  else
    let sw : ℚ := ((clamp_int st.swing 0 100 : Int) : ℚ)
    if sw ≤ 0 then (base, st)
    else
      let d := base * sw / 200
      let p := if st.swing_phase = 0 then (base + d, { st with swing_phase := 1 })
               else (base - d, { st with swing_phase := 0 })
      (if p.1 < 1 then 1 else p.1, p.2)

/-- `held_set_hash` from the C source (FNV-1a over the active notes). -/
def held_set_hash (st : Engine) : Nat :=
  st.active_notes.foldl (fun h n => ((h ^^^ n) * 16777619) % U32) 2166136261

/-- `lane_modifier_hash` from the C source. -/
def lane_modifier_hash (st : Engine) (laneIndex : Nat) : Nat :=
  mix_u32 (held_set_hash st ^^^ ((laneIndex + 1) * 0x9E37))

/-- `lane_should_drop` from the C source. -/
def lane_should_drop (lane : LaneState) (modHash : Nat) (modStep : Nat) : Bool :=
  let amt := clamp_int lane.drop 0 100
  if amt ≤ 0 then false
  else if amt ≥ 100 then true
  else
    let r := step_rand_u32 (toU32 lane.drop_seed) modStep (modHash ^^^ 0xD0A4)
    decide (((r % 100 : Nat) : Int) < amt)

/-- `lane_step_velocity` from the C source. -/
def lane_step_velocity (st : Engine) (lane : LaneState) (laneIndex : Nat) (modStep : Nat) : Int :=
  let base := if lane.velocity > 0 then lane.velocity else st.global_velocity
  let base := clamp_int base 1 127
  let amt := clamp_int st.global_v_rnd 0 127
  if amt ≤ 0 then base
  else
    let seed := (clamp_int st.global_rnd_seed 0 65535).toNat + 10000 * (laneIndex + 1)
    let r := step_rand_u32 seed modStep 0xA11CE
    clamp_int (base + rand_offset_signed r amt) 1 127

/-- `lane_step_gate` from the C source. -/
def lane_step_gate (st : Engine) (lane : LaneState) (laneIndex : Nat) (modStep : Nat) : Int :=
  let base := if lane.gate > 0 then lane.gate else st.global_gate
  let base := clamp_int base 0 1600
  let amt := clamp_int st.global_g_rnd 0 1600
  if amt ≤ 0 then base
  else
    let seed := (clamp_int st.global_rnd_seed 0 65535).toNat + 10000 * (laneIndex + 1)
    let r := step_rand_u32 seed modStep 0x6A73
    clamp_int (base + rand_offset_signed r amt) 0 1600

/-- `lane_random_octave_offset` from the C source. -/
def lane_random_octave_offset (lane : LaneState) (modHash : Nat) (modStep : Nat) : Int :=
  let amt := clamp_int lane.oct 0 100
  if amt ≤ 0 then 0
  else
    let r := step_rand_u32 (toU32 lane.oct_seed ^^^ 0x0C7A9E) modStep (modHash ^^^ 0x7F1D)
    if ((r % 100 : Nat) : Int) ≥ amt then 0
    else
      match lane.oct_rng with
      | OCT_RAND_P1 => 12
      | OCT_RAND_M1 => -12
      | OCT_RAND_PM1 => if (r >>> 8) &&& 1 = 1 then 12 else -12
      | OCT_RAND_P2 => if (r >>> 10) &&& 1 = 1 then 12 else 24
      | OCT_RAND_M2 => if (r >>> 10) &&& 1 = 1 then -12 else -24
      | OCT_RAND_PM2 =>
        let pick := (r >>> 10) % 4
        if pick = 0 then -24 else if pick = 1 then -12 else if pick = 2 then 12 else 24

/-- `add_unique_note` from the C source. -/
def add_unique_note (l : List Int) (maxCount : Nat) (note : Int) : List Int :=
  if note ∈ l then l
  else if l.length ≥ maxCount then l
  else l ++ [note]

/-- `seeded_shuffle_notes` from the C source: Fisher-Yates with the step RNG,
`i` running from `count-1` down to `1`. -/
def seeded_shuffle_notes (l : List Int) (seed : Nat) : List Int :=
  if l.length ≤ 1 then l
  else
    ((List.range (l.length - 1)).reverse.map (· + 1)).foldl
      (fun a i =>
        let r := step_rand_u32 seed i 0x41C6
        let j := r % (i + 1)
        let x := a.getD i 0
        let y := a.getD j 0
        (a.set i y).set j x)
      l

/-- The body of the scale-pool loops in `build_scale_pool`: the loop guard
`count < note_limit` and the MIDI-range filter, then `add_unique_note`. -/
def scale_pool_push (noteLimit : Nat) (l : List Int) (note : Int) : List Int :=
  if l.length < noteLimit then
    (if note < 0 ∨ note > 127 then l else add_unique_note l noteLimit note)
  else l

/-- `build_scale_pool` from the C source. -/
def build_scale_pool (st : Engine) (maxNotes : Nat) : List Int :=
  if maxNotes = 0 then []
  else if live_note_count st = 0 then []
  else
    let base : Int := 48 + clamp_int st.root_note 0 11
    let noteLimit := (clamp_int st.scale_range 1 (maxNotes : Int)).toNat
    let intervals := scale_intervals_for_mode st.scale_mode
    let pool :=
      if st.held_order = ORDER_DOWN then
        let p0 := if 0 ≤ base ∧ base ≤ 127 then add_unique_note [] noteLimit base else []
        ((List.range' 1 3).flatMap
          (fun o => intervals.reverse.map (fun iv => base - (o : Int) * 12 + iv))).foldl
          (scale_pool_push noteLimit) p0
      else
        ((List.range 3).flatMap
          (fun o => intervals.map (fun iv => base + (o : Int) * 12 + iv))).foldl
          (scale_pool_push noteLimit) []
    let pool := if pool = [] then [clamp_int base 0 127] else pool
    if st.held_order = ORDER_RAND then seeded_shuffle_notes pool (toU32 st.held_order_seed)
    else pool

/-- The loop body shared by the branches of `build_held_pool` (loop guard
`count < max_notes`, then `add_unique_note`). -/
def held_pool_push (maxNotes : Nat) (l : List Int) (n : Nat) : List Int :=
  if l.length < maxNotes then add_unique_note l maxNotes (n : Int) else l

/-- `build_held_pool` from the C source. -/
def build_held_pool (st : Engine) (maxNotes : Nat) : List Int :=
  if maxNotes = 0 then []
  else if st.held_order = ORDER_PLAYED ∧ 0 < st.as_played.length then
    st.as_played.foldl (held_pool_push maxNotes) []
  else if st.held_order = ORDER_DOWN then
    st.active_notes.reverse.foldl (held_pool_push maxNotes) []
  else if st.held_order = ORDER_RAND then
    seeded_shuffle_notes (st.active_notes.foldl (held_pool_push maxNotes) [])
      (toU32 st.held_order_seed)
  else
    st.active_notes.foldl (held_pool_push maxNotes) []

/-- `build_register_pool` from the C source. -/
def build_register_pool (st : Engine) (maxNotes : Nat) : List Int :=
  if maxNotes = 0 then []
  else if st.register_mode = REG_SCALE then build_scale_pool st maxNotes
  else build_held_pool st maxNotes

/-- `select_lane_note` from the C source (`-1` stands for "no note"). -/
def select_lane_note (lane : LaneState) (pool : List Int) : Int :=
  if pool.length = 0 then -1
  else
    let step := clamp_int lane.note_step 1 24
    let idx := (step - 1).toNat
    let idx := if idx ≥ pool.length then pool.length - 1 else idx
    pool.getD idx 0

/-- `apply_lane_note_random` from the C source. -/
def apply_lane_note_random (lane : LaneState) (note : Int) (pool : List Int)
    (modHash : Nat) (modStep : Nat) : Int :=
  if pool.length < 2 then note
  else
    let amt := clamp_int lane.note_rnd 0 100
    if amt ≤ 0 then note
    else
      let r := step_rand_u32 (toU32 lane.seed) modStep (modHash ^^^ 0x91E3)
      if ((r % 100 : Nat) : Int) ≥ amt then note
      else
        let start := (r >>> 8) % pool.length
        match (List.range pool.length).findSome?
          (fun i =>
            let pick := pool.getD ((start + i) % pool.length) 0
            if pick ≠ note then some pick else none) with
        | some x => x
        | none => note

/-- `euclid_hit` from the C source: the closed-form Euclidean membership test. -/
def euclid_hit (stepIndex steps pulses rot : Int) : Bool :=
  let s := clamp_int steps 1 128
  let p := clamp_int pulses 0 s
  let r := clamp_int rot 0 (s - 1)
  if p ≤ 0 then false
  else if p ≥ s then true
  else decide ((((stepIndex + r) % s) * p) % s < p)

/-- `euclid_pulse_index` from the C source: the ordinal of a firing step among
the firings of one cycle (`-1` when the step does not fire or is out of range). -/
def euclid_pulse_index (stepIndex steps pulses rot : Int) : Int :=
  let s := clamp_int steps 1 128
  let p := clamp_int pulses 0 s
  let r := clamp_int rot 0 (s - 1)
  if ¬ euclid_hit stepIndex s p r then -1
  else
    match ((List.range s.toNat).filter (fun i => euclid_hit i s p r)).findIdx?
      (fun i => (i : Int) == stepIndex) with
    | some k => (k : Int)
    | none => -1

/-- A note-off message as the C code emits it: `emit3(..., 0x80, note, 0)`. -/
def offMsg (n : Nat) : OutMsg := ⟨0x80, n, 0, 3⟩

/-- A note-on message as the C code emits it: `emit3(..., 0x90, note, vel)`. -/
def onMsg (n v : Nat) : OutMsg := ⟨0x90, n, v, 3⟩

/-- `emit3` from the C source: append one 3-byte message unless the buffer
is full; returns the new buffer and the C return value. -/
def emit3 (maxOut : Nat) (msgs : List OutMsg) (m : OutMsg) : List OutMsg × Bool :=
  if msgs.length ≥ maxOut then (msgs, false) else (msgs ++ [m], true)

/-- `flush_all_voices` from the C source (`voice_note_off` at index 0 until
empty; stops when the output buffer is full). -/
def flush_all_voices (maxOut : Nat) : List Voice → List OutMsg → List Voice × List OutMsg
  | [], msgs => ([], msgs)
  | v :: rest, msgs =>
    let e := emit3 maxOut msgs (offMsg v.note)
    if e.2 then flush_all_voices maxOut rest e.1
    else (v :: rest, e.1)

/-- `kill_voice_notes` from the C source: retire every voice sounding `p`
(scan in order; stop when the output buffer is full). -/
def kill_voice_notes (p : Nat) (maxOut : Nat) : List Voice → List OutMsg → List Voice × List OutMsg
  | [], msgs => ([], msgs)
  | v :: rest, msgs =>
    if v.note = p then
      let e := emit3 maxOut msgs (offMsg v.note)
      if e.2 then kill_voice_notes p maxOut rest e.1
      else (v :: rest, e.1)
    else
      let r := kill_voice_notes p maxOut rest msgs
      (v :: r.1, r.2)

/-- The eviction loop of `schedule_note`: `while (voice_count >= voice_limit)`
retire the oldest voice; the `Bool` is false when an emit failed (the C code
then returns 0). -/
def evict_voices (limit : Int) (maxOut : Nat) :
    List Voice → List OutMsg → List Voice × List OutMsg × Bool
  | [], msgs => ([], msgs, true)
  | v :: rest, msgs =>
    if (((v :: rest).length : Int) < limit) then (v :: rest, msgs, true)
    else
      let e := emit3 maxOut msgs (offMsg v.note)
      if e.2 then evict_voices limit maxOut rest e.1
      else (v :: rest, e.1, false)

/-- `advance_voice_timers_clock` from the C source. -/
def advance_voice_timers_clock (maxOut : Nat) :
    List Voice → List OutMsg → List Voice × List OutMsg
  | [], msgs => ([], msgs)
  | v :: rest, msgs =>
    let v := if v.clock_left > 0 then { v with clock_left := v.clock_left - 1 } else v
    if v.clock_left ≤ 0 then
      let e := emit3 maxOut msgs (offMsg v.note)
      if e.2 then advance_voice_timers_clock maxOut rest e.1
      else (v :: rest, e.1)
    else
      let r := advance_voice_timers_clock maxOut rest msgs
      (v :: r.1, r.2)

/-- `advance_voice_timers_samples` from the C source. -/
def advance_voice_timers_samples (frames : Int) (maxOut : Nat) :
    List Voice → List OutMsg → List Voice × List OutMsg
  | [], msgs => ([], msgs)
  | v :: rest, msgs =>
    let v := if v.sample_left > 0 then { v with sample_left := v.sample_left - frames } else v
    if v.sample_left ≤ 0 then
      let e := emit3 maxOut msgs (offMsg v.note)
      if e.2 then advance_voice_timers_samples frames maxOut rest e.1
      else (v :: rest, e.1)
    else
      let r := advance_voice_timers_samples frames maxOut rest msgs
      (v :: r.1, r.2)

/-- `voice_add` from the C source (gate duration in clock pulses or samples
depending on the sync mode; C integer division on non-negative operands). -/
def voice_add (st : Engine) (vs : List Voice) (n : Nat) (gatePct : Int) : List Voice :=
  if vs.length ≥ 64 then vs
  else if st.sync_mode = SYNC_CLOCK then
    let c := st.clocks_per_step * gatePct / 100
    vs ++ [⟨n, if c < 1 then 1 else c, 0⟩]
  else
    let s := st.step_interval_base * gatePct / 100
    vs ++ [⟨n, 0, if s < 1 then 1 else s⟩]

/-- `schedule_note` from the C source: dedup kill, FIFO eviction, note-on,
then either an immediate note-off (zero gate) or a new voice. -/
def schedule_note (st : Engine) (note vel gatePct : Int) (maxOut : Nat)
    (msgs : List OutMsg) : Engine × List OutMsg × Bool :=
  if note < 0 ∨ note > 127 then (st, msgs, false)
  else
    let n := note.toNat
    let v := (clamp_int vel 1 127).toNat
    let g := clamp_int gatePct 0 1600
    let limit := clamp_int st.max_voices 1 64
    let k := kill_voice_notes n maxOut st.voices msgs
    let ev := evict_voices limit maxOut k.1 k.2
    if ¬ ev.2.2 then ({ st with voices := ev.1 }, ev.2.1, false)
    else
      let e := emit3 maxOut ev.2.1 (onMsg n v)
      if ¬ e.2 then ({ st with voices := ev.1 }, e.1, false)
      else if g ≤ 0 then
        let e2 := emit3 maxOut e.1 (offMsg n)
        ({ st with voices := ev.1 }, e2.1, e2.2)
      else
        ({ st with voices := voice_add st ev.1 n g }, e.1, true)

/-- `handle_transport_stop` from the C source: CC 123 (all notes off), flush
every voice, clear the note state and reset the phrase. -/
def handle_transport_stop (st : Engine) (maxOut : Nat) : Engine × List OutMsg :=
  let msgs : List OutMsg := []
  let msgs := if 0 < maxOut then (emit3 maxOut msgs ⟨0xB0, 123, 0, 3⟩).1 else msgs
  let fl :=
    if 0 < st.voices.length ∧ msgs.length < maxOut then flush_all_voices maxOut st.voices msgs
    else (st.voices, msgs)
  let st := { st with voices := fl.1, physical_notes := [], physical_as_played := [] }
  let st := clear_active st
  let st := { st with note_set_dirty := false,
                      latch_ready_replace := st.latch,
                      phrase_running := false }
  (reset_phrase st, fl.2)

/-- `enforce_voice_limit`'s loop: `while (voice_count > limit)` retire the
oldest voice (stop when the output buffer is full). -/
def enforce_voice_limit_loop (limit : Int) (maxOut : Nat) :
    List Voice → List OutMsg → List Voice × List OutMsg
  | [], msgs => ([], msgs)
  | v :: rest, msgs =>
    if (((v :: rest).length : Int) > limit) then
      let e := emit3 maxOut msgs (offMsg v.note)
      if e.2 then enforce_voice_limit_loop limit maxOut rest e.1
      else (v :: rest, e.1)
    else (v :: rest, msgs)

/-- `enforce_voice_limit` from the C source. -/
def enforce_voice_limit (st : Engine) (maxOut : Nat) (msgs : List OutMsg) :
    Engine × List OutMsg :=
  let limit := clamp_int st.max_voices 1 64
  let r := enforce_voice_limit_loop limit maxOut st.voices msgs
  ({ st with voices := r.1 }, r.2)

/-- The `if (euclid_hit(...))` block of `run_step`'s lane loop: the firing
test, the drop chance, pool building, note selection and all the seeded
modifiers, ending in `schedule_note`.  The `Bool` is the C loop's
"`schedule_note` did not fail" condition. -/
def lane_fire (st : Engine) (laneC : LaneState) (laneIdx : Nat) (gOct laneOct : Int)
    (cursor steps pulses rot : Int) (maxOut : Nat) (msgs : List OutMsg) :
    Engine × List OutMsg × Bool :=
  if euclid_hit cursor steps pulses rot then
    let pulseIdx := euclid_pulse_index cursor steps pulses rot
    let modStep : Nat := if 0 ≤ pulseIdx then pulseIdx.toNat else cursor.toNat
    let modHash := lane_modifier_hash st laneIdx
    if lane_should_drop laneC modHash modStep then (st, msgs, true)
    else
      let pool := build_register_pool st 24
      if pool.length = 0 then (st, msgs, true)
      else
        let note := select_lane_note laneC pool
        let note := apply_lane_note_random laneC note pool modHash modStep
        let note := note + laneOct + lane_random_octave_offset laneC modHash modStep + gOct
        let note := clamp_int note 0 127
        let vel := lane_step_velocity st laneC laneIdx modStep
        let gate := lane_step_gate st laneC laneIdx modStep
        schedule_note st note vel gate maxOut msgs
  else (st, msgs, true)

/-- The per-lane loop body of `run_step`, iterated over the four lanes in
order.  The clamped lane parameters are written back before the firing test
(as in C); a failed `schedule_note` breaks out of the loop before the cursor
advance; reaching the output cap breaks after it. -/
def run_step_lanes (gOct : Int) (maxOut : Nat) :
    List (Fin 4) → Engine → List OutMsg → Engine × List OutMsg
  | [], st, msgs => (st, msgs)
  | i :: rest, st, msgs =>
    let lane := st.lanes i
    if ¬ lane.enabled then run_step_lanes gOct maxOut rest st msgs
    else
      let steps := clamp_int lane.steps 1 128
      let pulses := clamp_int lane.pulses 0 steps
      let rot := clamp_int lane.rot 0 (steps - 1)
      let cursor := if lane.step_cursor < 0 ∨ lane.step_cursor ≥ steps then 0 else lane.step_cursor
      let laneC := { lane with steps := steps, pulses := pulses, rot := rot, step_cursor := cursor }
      let st := { st with lanes := Function.update st.lanes i laneC }
      let laneOct := clamp_int laneC.octave (-3) 3 * 12
      let r := lane_fire st laneC i.val gOct laneOct cursor steps pulses rot maxOut msgs
      if ¬ r.2.2 then (r.1, r.2.1)
      else
        let stA := r.1
        let lane2 := { stA.lanes i with step_cursor := (cursor + 1) % steps }
        let stA := { stA with lanes := Function.update stA.lanes i lane2 }
        if maxOut ≤ r.2.1.length then (stA, r.2.1)
        else run_step_lanes gOct maxOut rest stA r.2.1

/-- `run_step` from the C source. -/
def run_step (st : Engine) (maxOut : Nat) : Engine × List OutMsg :=
  if maxOut < 1 then (st, [])
  else
    let st := apply_pending_note_set st
    let st := update_phrase_running st
    if ¬ (st.phrase_running = true ∨ st.retrigger_mode = RETRIG_CONT) then (st, [])
    else
      let gOct := clamp_int st.octave (-3) 3 * 12
      let r := run_step_lanes gOct maxOut [0, 1, 2, 3] st []
      ({ r.1 with global_step_index := r.1.global_step_index + 1 }, r.2)

/-- `process_clock_tick` from the C source (with the compile-time constant
`CLOCK_OUTPUT_DELAY_TICKS = 1` folded in, as the compiler does). -/
def process_clock_tick (st : Engine) (maxOut : Nat) : Engine × List OutMsg :=
  if maxOut < 1 then (st, [])
  else
    let st :=
      if 0 < st.delayed_step_triggers then
        let p := st.pending_step_triggers + st.delayed_step_triggers
        { st with pending_step_triggers := if p > 64 then 64 else p, delayed_step_triggers := 0 }
      else st
    let a := advance_voice_timers_clock maxOut st.voices []
    let st := { st with voices := a.1 }
    let total := st.clock_tick_total + 1
    let counter : Nat := total % (st.clocks_per_step.toNat)
    let st := { st with clock_tick_total := total, clock_counter := (counter : Int) }
    let st :=
      if counter = 0 then
        let d := st.delayed_step_triggers + 1
        { st with delayed_step_triggers := if d > 64 then 64 else d,
                  pending_step_triggers := if st.pending_step_triggers > 64 then 64
                                           else st.pending_step_triggers }
      else st
    (st, a.2)

/-- The generic pass-through at the end of `eucalypso_process_midi`:
non-note, non-transport input is forwarded (truncated to 3 bytes). -/
def pass_msg (msg : List Nat) : OutMsg :=
  ⟨msg.getD 0 0, msg.getD 1 0, msg.getD 2 0, if msg.length > 3 then 3 else msg.length⟩

/-- The note-message / pass-through tail of `eucalypso_process_midi`
(everything after the transport-status dispatch). -/
def process_note_or_pass (st : Engine) (msg : List Nat) (maxOut : Nat) : Engine × List OutMsg :=
  let status := msg.getD 0 0
  let mtype := status &&& 0xF0
  if (mtype = 0x90 ∨ mtype = 0x80) ∧ 3 ≤ msg.length then
    let note := msg.getD 1 0
    let vel := msg.getD 2 0
    let liveBefore := live_note_count st
    if mtype = 0x90 ∧ 0 < vel then
      let st2 := note_on st note vel
      if st2.sync_mode = SYNC_CLOCK ∧ st2.clock_running = true ∧
         st2.midi_transport_active = false ∧ st2.register_mode = REG_HELD ∧
         liveBefore = 0 ∧ 0 < live_note_count st2 ∧ 0 < maxOut then
        run_step st2 maxOut
      else if st2.sync_mode = SYNC_INTERNAL ∧ st2.register_mode = REG_HELD ∧
              st2.midi_transport_active = false ∧
              liveBefore = 0 ∧ 0 < live_note_count st2 ∧ 0 < maxOut then
        let r := run_step st2 maxOut
        let ns := next_step_interval r.1
        let f := if ns.1 < 1 then 1 else ns.1
        let st3 := { ns.2 with samples_until_step_f := f }
        let untilI := trunc_q (f + 1 / 2)
        ({ st3 with samples_until_step := if untilI < 1 then 1 else untilI }, r.2)
      else (st2, [])
    else (note_off st note, [])
  else
    if maxOut < 1 then (st, [])
    else (st, [pass_msg msg])

/-- `eucalypso_process_midi` from the C source. -/
def process_midi (st : Engine) (msg : List Nat) (maxOut : Nat) : Engine × List OutMsg :=
  if msg.length < 1 then (st, [])
  else
    let status := msg.getD 0 0
    if st.sync_mode = SYNC_CLOCK then
      if status = 0xFA then
        (reset_phrase { st with midi_transport_active := true, clock_running := true,
                                clock_counter := 0, clock_tick_total := 0,
                                pending_step_triggers := 0, delayed_step_triggers := 0 }, [])
      else if status = 0xFB then
        ({ st with midi_transport_active := true, clock_running := true,
                   pending_step_triggers := 0, delayed_step_triggers := 0 }, [])
      else if status = 0xFC then
        handle_transport_stop
          { st with midi_transport_active := false, clock_running := false,
                    clock_counter := 0, pending_step_triggers := 0,
                    delayed_step_triggers := 0 } maxOut
      else if status = 0xF8 then
        if st.clock_running = false then (st, [])
        else process_clock_tick st maxOut
      else process_note_or_pass st msg maxOut
    else
      if status = 0xFA ∨ status = 0xFB then
        let st := { st with midi_transport_active := true }
        let st := if st.timing_dirty = true ∧ 0 < st.sample_rate
                  then recalc_timing st st.sample_rate else st
        let st := { st with swing_phase := 0, internal_sample_total := 0 }
        let f := if st.step_interval_base_f > 0 then st.step_interval_base_f else 1
        let untilI := trunc_q (f + 1 / 2)
        let st := { st with samples_until_step_f := f,
                            samples_until_step := if untilI < 1 then 1 else untilI }
        (reset_phrase st, [])
      else if status = 0xFC then
        handle_transport_stop { st with midi_transport_active := false } maxOut
      else process_note_or_pass st msg maxOut

/-- The `while (pending_step_triggers > 0 && count < max_out)` loop of the
external-clock branch of `eucalypso_tick`; fuel is the pending count itself,
which the loop decrements each iteration. -/
def tick_clock_loop (maxOut : Nat) : Nat → Engine → List OutMsg → Engine × List OutMsg
  | 0, st, msgs => (st, msgs)
  | n + 1, st, msgs =>
    if msgs.length < maxOut then
      let r := run_step st (maxOut - msgs.length)
      let st := { r.1 with pending_step_triggers := r.1.pending_step_triggers - 1 }
      tick_clock_loop maxOut n st (msgs ++ r.2)
    else (st, msgs)

/-- The `while (samples_until_step_f <= 0.0 && count < max_out)` loop of the
internal-clock branch of `eucalypso_tick`.  After each body the countdown is
at least 1 (the C code clamps it), so the loop in fact runs at most once; the
fuel only makes the recursion structural. -/
def tick_internal_loop (maxOut : Nat) : Nat → Engine → List OutMsg → Engine × List OutMsg
  | 0, st, msgs => (st, msgs)
  | n + 1, st, msgs =>
    if st.samples_until_step_f ≤ 0 ∧ msgs.length < maxOut then
      let r := run_step st (maxOut - msgs.length)
      let ns := next_step_interval r.1
      let f := ns.2.samples_until_step_f + ns.1
      let st := { ns.2 with samples_until_step_f := if f < 1 then 1 else f }
      tick_internal_loop maxOut n st (msgs ++ r.2)
    else (st, msgs)

/-- The `if (live_count == 0)` block of `eucalypso_tick`: flush the voices
and reset the note/trigger state; the `Bool` is the early `return count`
there (`!keep_progressing && register_mode == REG_HELD`). -/
def tick_flush_block (st : Engine) (maxOut : Nat) (msgs : List OutMsg) :
    Engine × List OutMsg × Bool :=
  let liveCount : Nat :=
    if st.register_mode = REG_SCALE then
      (if any_enabled_lane st = true ∧ 0 < live_note_count st then 1 else 0)
    else live_note_count st
  let keep := st.retrigger_mode = RETRIG_CONT
  if liveCount = 0 then
    let fl := if 0 < st.voices.length then flush_all_voices maxOut st.voices msgs
              else (st.voices, msgs)
    let st := { st with voices := fl.1 }
    let st := if st.sync_mode = SYNC_CLOCK ∧ ¬ keep then
                { st with pending_step_triggers := 0, delayed_step_triggers := 0 }
              else st
    let st := if ¬ st.latch then { clear_active st with note_set_dirty := false } else st
    let st := { st with phrase_running := false }
    (st, fl.2, decide (¬ keep ∧ st.register_mode = REG_HELD))
  else (st, msgs, false)

/-- The final step-draining part of `eucalypso_tick`: drain the buffered
clock-step triggers in external-clock mode, or advance the sample countdown
and run due steps in internal-clock mode. -/
def tick_step_block (st : Engine) (frames : Int) (maxOut : Nat) (msgs : List OutMsg) :
    Engine × List OutMsg :=
  let st := update_phrase_running st
  if st.sync_mode = SYNC_CLOCK then
    let st := { st with pending_step_triggers :=
                  if st.pending_step_triggers > 64 then 64 else st.pending_step_triggers }
    tick_clock_loop maxOut st.pending_step_triggers.toNat st msgs
  else
    let st := { st with internal_sample_total := st.internal_sample_total + frames.toNat,
                        samples_until_step_f := st.samples_until_step_f - (frames : ℚ) }
    let r := tick_internal_loop maxOut (maxOut + 1) st msgs
    let untilI := trunc_q (r.1.samples_until_step_f + 1 / 2)
    ({ r.1 with samples_until_step := if untilI < 1 then 1 else untilI }, r.2)

/-- `eucalypso_tick` after the voice-limit enforcement: the per-block voice
timer decay (internal mode), the zero-live-notes flush block with its early
return, then the step draining. -/
def tick_after_enforce (st : Engine) (msgs : List OutMsg) (frames : Int) (maxOut : Nat) :
    Engine × List OutMsg :=
  let r :=
    if st.sync_mode = SYNC_INTERNAL then
      let a := advance_voice_timers_samples frames maxOut st.voices msgs
      ({ st with voices := a.1 }, a.2)
    else (st, msgs)
  if maxOut ≤ r.2.length then r
  else
    let z := tick_flush_block r.1 maxOut r.2
    if z.2.2 = true then (z.1, z.2.1)
    else tick_step_block z.1 frames maxOut z.2.1

/-- `eucalypso_tick` after the timing recalculation: `enforce_voice_limit`,
the early return when it fills the buffer, then the rest of the tick. -/
def tick_after_timing (st : Engine) (frames : Int) (maxOut : Nat) : Engine × List OutMsg :=
  let ev := enforce_voice_limit st maxOut []
  if maxOut ≤ ev.2.length then ev
  else tick_after_enforce ev.1 ev.2 frames maxOut

/-- `eucalypso_tick` from the C source, as the composition of its stages. -/
def tick (st0 : Engine) (frames sampleRate : Int) (maxOut : Nat) : Engine × List OutMsg :=
  if frames < 0 ∨ maxOut < 1 then (st0, [])
  else
    tick_after_timing
      (if st0.timing_dirty = true ∨ st0.sample_rate ≠ sampleRate
       then recalc_timing st0 sampleRate else st0) frames maxOut

/-- `eucalypso_create_instance` from the C source: the construction defaults
(`calloc` zeroes everything not listed; the C code then sets these fields). -/
def create_instance : Engine where
  rate := RATE_1_16
  sync_mode := SYNC_INTERNAL
  register_mode := REG_HELD
  held_order := ORDER_UP
  scale_mode := SCALE_MAJOR
  retrigger_mode := RETRIG_RESTART
  root_note := 0
  octave := 0
  scale_range := 24
  held_order_seed := 1
  rand_cycle := 16
  global_velocity := 100
  global_gate := 80
  global_v_rnd := 0
  global_g_rnd := 0
  global_rnd_seed := 1
  bpm := 120
  swing := 0
  latch := false
  max_voices := 8
  lanes := fun i =>
    { enabled := i = 0, steps := 16, pulses := 4, rot := 0, note_step := (i : Int) + 1,
      octave := 0, note_rnd := 0, seed := 1, velocity := 0, gate := 0, mod_len := 0,
      drop := 0, drop_seed := 1, swap := 0, swap_seed := 1, oct := 0, oct_seed := 1,
      oct_rng := OCT_RAND_PM1, vel_rnd := 0, vel_seed := 1, gate_rnd := 0, gate_seed := 1,
      time_rnd := 0, time_seed := 1, step_cursor := 0 }
  physical_notes := []
  physical_as_played := []
  note_set_dirty := false
  active_notes := []
  as_played := []
  latch_ready_replace := false
  phrase_running := false
  sample_rate := 0
  timing_dirty := true
  step_interval_base := 1
  samples_until_step := 0
  swing_phase := 0
  step_interval_base_f := 1
  samples_until_step_f := 0
  internal_sample_total := 0
  clock_counter := 0
  clocks_per_step := 6
  clock_running := true
  clock_tick_total := 0
  pending_step_triggers := 0
  delayed_step_triggers := 0
  midi_transport_active := false
  global_step_index := 0
  voices := []

/-- One external input to the engine: a MIDI message handed to
`eucalypso_process_midi`, or one audio-block call of `eucalypso_tick`,
each with its caller-supplied output cap. -/
inductive EngineInput where
  | midi (msg : List Nat) (maxOut : Nat)
  | tick (frames sampleRate : Int) (maxOut : Nat)

/-- Dispatch one input to the corresponding entry point. -/
def engine_step (st : Engine) : EngineInput → Engine × List OutMsg
  | .midi msg maxOut => process_midi st msg maxOut
  | .tick frames sampleRate maxOut => tick st frames sampleRate maxOut

/-- Run a whole input sequence, collecting each call's emitted messages. -/
def engine_run : Engine → List EngineInput → List (List OutMsg)
  | _, [] => []
  | st, e :: rest =>
    let r := engine_step st e
    r.2 :: engine_run r.1 rest

/-- The event trace of the engine from construction, as a function of the
input sequence alone. -/
def engine_trace (evs : List EngineInput) : List (List OutMsg) :=
  engine_run create_instance evs

theorem clamp_int_eq_self {v lo hi : Int} (h1 : lo ≤ v) (h2 : v ≤ hi) :
    clamp_int v lo hi = v := by
  unfold clamp_int; split_ifs <;> omega

/-- C2: for every lane position, `steps ≥ 1` (lane steps are clamped to
`[1,128]` wherever they are written, so `steps ≤ 128` throughout),
`0 ≤ pulses ≤ steps` and `rotation ∈ [0, steps)`, the Euclidean trigger
fires exactly when `((position + rotation) * pulses) mod steps < pulses`;
`pulses = 0` never fires, `pulses = steps` fires at every position, and for
`steps = 16, pulses = 4` the rotation-0 firing set is `{0,4,8,12}` and the
rotation-2 firing set is `{2,6,10,14}`. -/
theorem euclid_hit_closed_form (pos steps pulses rot : Int)
    (h1 : 1 ≤ steps) (h2 : steps ≤ 128) (h3 : 0 ≤ pulses) (h4 : pulses ≤ steps)
    (h5 : 0 ≤ rot) (h6 : rot < steps) (h7 : 0 ≤ pos) :
    (euclid_hit pos steps pulses rot = true ↔ ((pos + rot) * pulses) % steps < pulses)
    ∧ (pulses = 0 → euclid_hit pos steps pulses rot = false)
    ∧ (pulses = steps → euclid_hit pos steps pulses rot = true)
    ∧ ((List.range 16).filter (fun i => euclid_hit i 16 4 0) = [0, 4, 8, 12])
    ∧ ((List.range 16).filter (fun i => euclid_hit i 16 4 2) = [2, 6, 10, 14]) := by
  have hs : clamp_int steps 1 128 = steps := clamp_int_eq_self h1 h2
  have hp : clamp_int pulses 0 steps = pulses := clamp_int_eq_self h3 h4
  have hr : clamp_int rot 0 (steps - 1) = rot := clamp_int_eq_self h5 (by omega)
  have hmod : (((pos + rot) % steps) * pulses) % steps = ((pos + rot) * pulses) % steps := by
    conv_rhs => rw [Int.mul_emod]
    rw [Int.mul_emod ((pos + rot) % steps) pulses]
    rw [Int.emod_emod_of_dvd (pos + rot) dvd_rfl]
  refine ⟨?_, ?_, ?_, by decide, by decide⟩
  · simp only [euclid_hit]
    rw [hs, hp, hr]
    split_ifs with c1 c2
    · have hp0 : pulses = 0 := by omega
      subst hp0
      simp only [false_iff, not_lt]
      exact Int.emod_nonneg _ (by omega)
    · have hps : pulses = steps := by omega
      subst hps
      simp only [true_iff]
      rw [Int.mul_emod_left]
      omega
    · rw [decide_eq_true_iff, hmod]
  · intro h0
    simp only [euclid_hit]
    rw [hs, hp, hr]
    split_ifs with c1 c2 <;> first | rfl | omega
  · intro hps
    simp only [euclid_hit]
    rw [hs, hp, hr]
    split_ifs with c1 c2 <;> first | rfl | omega

/-- Witness for `euclid_hit_closed_form` at `pos = 5, steps = 16, pulses = 4,
rotation = 2` (position 5 does not fire; position 2 does). -/
theorem euclid_hit_closed_form_witness :
    (euclid_hit 5 16 4 2 = true ↔ (((5 : Int) + 2) * 4) % 16 < 4)
    ∧ (euclid_hit 5 16 4 2 = false ∧ euclid_hit 2 16 4 2 = true) :=
  ⟨(euclid_hit_closed_form 5 16 4 2 (by decide) (by decide) (by decide) (by decide)
      (by decide) (by decide) (by decide)).1,
   by decide, by decide⟩

/-- The step RNG as the specification words it: the 32-bit avalanche mix
applied to `seed XOR step_low XOR mix(step_high XOR salt) XOR salt`, where
`step_low`/`step_high` are the low and high 32 bits of the 64-bit step
index.  Written from the spec, to be compared with `step_rand_u32`. -/
def step_rand_spec_form (seed step salt : Nat) : Nat :=
  mix_u32 (seed ^^^ (step % 2 ^ 32) ^^^ mix_u32 ((step / 2 ^ 32) % 2 ^ 32 ^^^ salt) ^^^ salt)

theorem mix_u32_lt (x : Nat) : mix_u32 x < 2 ^ 32 := by
  have hsr : ∀ y k : Nat, y < 2 ^ 32 → y ^^^ (y >>> k) < 2 ^ 32 := by
    intro y k hy
    refine Nat.xor_lt_two_pow hy (lt_of_le_of_lt ?_ hy)
    rw [Nat.shiftRight_eq_div_pow]
    exact Nat.div_le_self y (2 ^ k)
  unfold mix_u32 U32
  exact hsr _ 16 (Nat.mod_lt _ (by norm_num))

/-- C7: `step_rand_u32` is exactly the spec's formula — the avalanche mix of
`seed XOR step_low XOR mix(step_high XOR salt) XOR salt` — it returns a
32-bit value, and it is a pure function: identical `(seed, step, salt)`
inputs give identical outputs. -/
theorem step_rand_u32_spec (seed step salt : Nat) (hstep : step < 2 ^ 64) :
    step_rand_u32 seed step salt = step_rand_spec_form seed step salt
    ∧ step_rand_u32 seed step salt < 2 ^ 32
    ∧ (∀ seed2 step2 salt2, seed2 = seed → step2 = step → salt2 = salt →
        step_rand_u32 seed2 step2 salt2 = step_rand_u32 seed step salt) := by
  refine ⟨?_, mix_u32_lt _, ?_⟩
  · unfold step_rand_u32 step_rand_spec_form
    have hmask : (0xFFFFFFFF : Nat) = 2 ^ 32 - 1 := by norm_num
    have hlo : step &&& 0xFFFFFFFF = step % 2 ^ 32 := by
      rw [hmask, Nat.and_pow_two_sub_one_eq_mod]
    have hhi : (step >>> 32) &&& 0xFFFFFFFF = (step / 2 ^ 32) % 2 ^ 32 := by
      rw [hmask, Nat.and_pow_two_sub_one_eq_mod, Nat.shiftRight_eq_div_pow]
    rw [hlo, hhi]
  · intro seed2 step2 salt2 e1 e2 e3
    rw [e1, e2, e3]

/-- Witness for `step_rand_u32_spec` at a step index with non-zero high
32 bits. -/
theorem step_rand_u32_spec_witness :
    ((1 <<< 40) + 123 : Nat) < 2 ^ 64
    ∧ step_rand_u32 1 ((1 <<< 40) + 123) 7 = step_rand_spec_form 1 ((1 <<< 40) + 123) 7 :=
  ⟨by decide, (step_rand_u32_spec 1 ((1 <<< 40) + 123) 7 (by decide)).1⟩

theorem seeded_shuffle_notes_length (l : List Int) (seed : Nat) :
    (seeded_shuffle_notes l seed).length = l.length := by
  unfold seeded_shuffle_notes
  split
  · rfl
  · have key : ∀ (idxs : List Nat) (a : List Int),
        (idxs.foldl (fun a i =>
          let r := step_rand_u32 seed i 0x41C6
          let j := r % (i + 1)
          let x := a.getD i 0
          let y := a.getD j 0
          (a.set i y).set j x) a).length = a.length := by
      intro idxs
      induction idxs with
      | nil => intro a; rfl
      | cons i rest ih =>
        intro a
        rw [List.foldl_cons, ih]
        simp
    exact key _ l

/-- A scale-mode, continuous-retrigger state with no live note, used by the
counterexample of C8: `run_step` still advances in this configuration
(`RETRIG_CONT`; the early return in `eucalypso_tick` requires `REG_HELD`),
and the pool builder returns the empty pool. -/
def scale_pool_empty_state : Engine :=
  { create_instance with register_mode := REG_SCALE, retrigger_mode := RETRIG_CONT }

/-- C8 counterexample: in scale register mode with no note live — a
reachable configuration under continuous retrigger — the register-pool
builder returns the empty pool (`if (live_note_count(inst) <= 0)
return 0;`), so it does not "always" return at least one pitch. -/
theorem build_scale_pool_counterexample :
    scale_pool_empty_state.register_mode = REG_SCALE
    ∧ live_note_count scale_pool_empty_state = 0
    ∧ build_register_pool scale_pool_empty_state 24 = []
    ∧ build_scale_pool scale_pool_empty_state 24 = [] := by
  decide

/-- C8 (amended): in scale register mode, whenever at least one note is
live, the register-pool builder yields at least one pitch — falling back to
the base note derived from the root note — for every scale, root note,
requested pool size and held-order configuration; with no live note it
returns the empty pool by design. -/
theorem build_scale_pool_nonempty (st : Engine) (maxNotes : Nat)
    (hlive : 0 < live_note_count st) (hmax : 0 < maxNotes) :
    0 < (build_scale_pool st maxNotes).length := by
  have hgen : ∀ (p : List Int) (b : Int),
      0 < (if p = [] then [clamp_int b 0 127] else p).length := by
    intro p b
    split
    · simp
    · next h => exact List.length_pos.mpr h
  simp only [build_scale_pool]
  rw [if_neg (by omega), if_neg (by omega)]
  split
  · rw [seeded_shuffle_notes_length]
    exact hgen _ _
  · exact hgen _ _

/-- A concrete scale-mode state with one live note, used by the witness of
`build_scale_pool_nonempty`. -/
def scale_pool_test_state : Engine :=
  { create_instance with register_mode := REG_SCALE, scale_mode := SCALE_PENT_MINOR,
                         scale_range := 24, physical_notes := [60], physical_as_played := [60] }

/-- Witness for `build_scale_pool_nonempty`: scale mode, one live note,
requested size far above the available expansion. -/
theorem build_scale_pool_nonempty_witness :
    0 < live_note_count scale_pool_test_state
    ∧ 0 < (build_scale_pool scale_pool_test_state 24).length :=
  ⟨by decide, build_scale_pool_nonempty scale_pool_test_state 24 (by decide) (by decide)⟩

/-- C1: determinism.  The embedded engine is a pure function of its input
sequence: it keeps no hidden state (the C instance is heap-local, `calloc`ed
to a fixed default, and the code reads no clock, no `rand()`, no globals
beyond immutable tables), so two runs from construction over the same
sequence of MIDI messages and tick calls (same frame counts, sample rates
and output caps) produce identical event traces, byte for byte. -/
theorem engine_trace_deterministic (evs1 evs2 : List EngineInput) (h : evs1 = evs2) :
    engine_trace evs1 = engine_trace evs2 := by
  rw [h]

/-- Witness for `engine_trace_deterministic` on a small concrete input
sequence (a note-on, an audio block, a transport stop). -/
theorem engine_trace_deterministic_witness :
    ([EngineInput.midi [0x90, 60, 100] 8, EngineInput.tick 6000 48000 8,
      EngineInput.midi [0xFC] 8]
      = [EngineInput.midi [0x90, 60, 100] 8, EngineInput.tick 6000 48000 8,
         EngineInput.midi [0xFC] 8])
    ∧ engine_trace [EngineInput.midi [0x90, 60, 100] 8, EngineInput.tick 6000 48000 8,
                    EngineInput.midi [0xFC] 8]
      = engine_trace [EngineInput.midi [0x90, 60, 100] 8, EngineInput.tick 6000 48000 8,
                      EngineInput.midi [0xFC] 8] :=
  ⟨rfl, engine_trace_deterministic _ _ rfl⟩

/-- A well-shaped engine-generated message: 3 bytes, status note-off (0x80),
note-on (0x90) or the all-notes-off controller (0xB0). -/
def GoodMsg (m : OutMsg) : Prop :=
  m.len = 3 ∧ (m.b0 = 0x80 ∨ m.b0 = 0x90 ∨ m.b0 = 0xB0)

/-- The output-buffer invariant: never more messages than the caller's cap,
and every message well-shaped. -/
def WellFormedOut (maxOut : Nat) (msgs : List OutMsg) : Prop :=
  msgs.length ≤ maxOut ∧ ∀ m ∈ msgs, GoodMsg m

theorem wf_nil (maxOut : Nat) : WellFormedOut maxOut [] :=
  ⟨Nat.zero_le _, by simp⟩

theorem emit3_wf {maxOut : Nat} {msgs : List OutMsg} {m : OutMsg}
    (h : WellFormedOut maxOut msgs) (hm : GoodMsg m) :
    WellFormedOut maxOut (emit3 maxOut msgs m).1 := by
  unfold emit3
  split
  · exact h
  · next hlt =>
    refine ⟨by simp; omega, ?_⟩
    intro x hx
    rcases List.mem_append.mp hx with hx | hx
    · exact h.2 x hx
    · rcases List.mem_singleton.mp hx with rfl
      exact hm

theorem offMsg_good (n : Nat) : GoodMsg (offMsg n) := ⟨rfl, Or.inl rfl⟩

theorem onMsg_good (n v : Nat) : GoodMsg (onMsg n v) := ⟨rfl, Or.inr (Or.inl rfl)⟩

theorem flush_all_voices_wf (maxOut : Nat) :
    ∀ (vs : List Voice) (msgs : List OutMsg), WellFormedOut maxOut msgs →
      WellFormedOut maxOut (flush_all_voices maxOut vs msgs).2 := by
  intro vs
  induction vs with
  | nil => intro msgs h; exact h
  | cons v rest ih =>
    intro msgs h
    simp only [flush_all_voices]
    split
    · exact ih _ (emit3_wf h (offMsg_good _))
    · exact emit3_wf h (offMsg_good _)

theorem kill_voice_notes_wf (p : Nat) (maxOut : Nat) :
    ∀ (vs : List Voice) (msgs : List OutMsg), WellFormedOut maxOut msgs →
      WellFormedOut maxOut (kill_voice_notes p maxOut vs msgs).2 := by
  intro vs
  induction vs with
  | nil => intro msgs h; exact h
  | cons v rest ih =>
    intro msgs h
    simp only [kill_voice_notes]
    split
    · split
      · exact ih _ (emit3_wf h (offMsg_good _))
      · exact emit3_wf h (offMsg_good _)
    · exact ih _ h

theorem evict_voices_wf (limit : Int) (maxOut : Nat) :
    ∀ (vs : List Voice) (msgs : List OutMsg), WellFormedOut maxOut msgs →
      WellFormedOut maxOut (evict_voices limit maxOut vs msgs).2.1 := by
  intro vs
  induction vs with
  | nil => intro msgs h; exact h
  | cons v rest ih =>
    intro msgs h
    simp only [evict_voices]
    split
    · exact h
    · split
      · exact ih _ (emit3_wf h (offMsg_good _))
      · exact emit3_wf h (offMsg_good _)

theorem advance_voice_timers_clock_wf (maxOut : Nat) :
    ∀ (vs : List Voice) (msgs : List OutMsg), WellFormedOut maxOut msgs →
      WellFormedOut maxOut (advance_voice_timers_clock maxOut vs msgs).2 := by
  intro vs
  induction vs with
  | nil => intro msgs h; exact h
  | cons v rest ih =>
    intro msgs h
    simp only [advance_voice_timers_clock]
    split_ifs <;>
      first
        | exact ih _ (emit3_wf h (offMsg_good _))
        | exact emit3_wf h (offMsg_good _)
        | exact ih _ h

theorem advance_voice_timers_samples_wf (frames : Int) (maxOut : Nat) :
    ∀ (vs : List Voice) (msgs : List OutMsg), WellFormedOut maxOut msgs →
      WellFormedOut maxOut (advance_voice_timers_samples frames maxOut vs msgs).2 := by
  intro vs
  induction vs with
  | nil => intro msgs h; exact h
  | cons v rest ih =>
    intro msgs h
    simp only [advance_voice_timers_samples]
    split_ifs <;>
      first
        | exact ih _ (emit3_wf h (offMsg_good _))
        | exact emit3_wf h (offMsg_good _)
        | exact ih _ h

theorem enforce_voice_limit_loop_wf (limit : Int) (maxOut : Nat) :
    ∀ (vs : List Voice) (msgs : List OutMsg), WellFormedOut maxOut msgs →
      WellFormedOut maxOut (enforce_voice_limit_loop limit maxOut vs msgs).2 := by
  intro vs
  induction vs with
  | nil => intro msgs h; exact h
  | cons v rest ih =>
    intro msgs h
    simp only [enforce_voice_limit_loop]
    split
    · split
      · exact ih _ (emit3_wf h (offMsg_good _))
      · exact emit3_wf h (offMsg_good _)
    · exact h

theorem schedule_note_wf {st : Engine} {note vel gatePct : Int} {maxOut : Nat}
    {msgs : List OutMsg} (h : WellFormedOut maxOut msgs) :
    WellFormedOut maxOut (schedule_note st note vel gatePct maxOut msgs).2.1 := by
  simp only [schedule_note]
  split
  · exact h
  · have hk := kill_voice_notes_wf note.toNat maxOut st.voices msgs h
    have hev := evict_voices_wf (clamp_int st.max_voices 1 64) maxOut
      (kill_voice_notes note.toNat maxOut st.voices msgs).1
      (kill_voice_notes note.toNat maxOut st.voices msgs).2 hk
    split
    · exact hev
    · have he := emit3_wf hev (onMsg_good note.toNat (clamp_int vel 1 127).toNat)
      split
      · exact he
      · split
        · exact emit3_wf he (offMsg_good note.toNat)
        · exact he

theorem lane_fire_wf {st : Engine} {laneC : LaneState} {laneIdx : Nat}
    {gOct laneOct cursor steps pulses rot : Int} {maxOut : Nat} {msgs : List OutMsg}
    (h : WellFormedOut maxOut msgs) :
    WellFormedOut maxOut
      (lane_fire st laneC laneIdx gOct laneOct cursor steps pulses rot maxOut msgs).2.1 := by
  simp only [lane_fire]
  split_ifs <;> first | exact h | exact schedule_note_wf h

theorem run_step_lanes_wf (gOct : Int) (maxOut : Nat) :
    ∀ (ls : List (Fin 4)) (st : Engine) (msgs : List OutMsg), WellFormedOut maxOut msgs →
      WellFormedOut maxOut (run_step_lanes gOct maxOut ls st msgs).2 := by
  intro ls
  induction ls with
  | nil => intro st msgs h; exact h
  | cons i rest ih =>
    intro st msgs h
    simp only [run_step_lanes]
    split_ifs <;>
      first
        | exact ih _ _ h
        | exact lane_fire_wf h
        | exact ih _ _ (lane_fire_wf h)

theorem run_step_wf (st : Engine) (maxOut : Nat) :
    WellFormedOut maxOut (run_step st maxOut).2 := by
  simp only [run_step]
  split
  · exact wf_nil _
  · split
    · exact wf_nil _
    · exact run_step_lanes_wf _ _ _ _ _ (wf_nil _)

theorem process_clock_tick_wf (st : Engine) (maxOut : Nat) :
    WellFormedOut maxOut (process_clock_tick st maxOut).2 := by
  simp only [process_clock_tick]
  split
  · exact wf_nil _
  · exact advance_voice_timers_clock_wf _ _ _ (wf_nil _)

theorem wf_append {maxOut : Nat} {msgs newMsgs : List OutMsg}
    (h1 : WellFormedOut maxOut msgs) (h2 : WellFormedOut (maxOut - msgs.length) newMsgs) :
    WellFormedOut maxOut (msgs ++ newMsgs) := by
  refine ⟨?_, ?_⟩
  · have ha := h1.1
    have hb := h2.1
    simp only [List.length_append]
    omega
  intro m hm
  rcases List.mem_append.mp hm with hm | hm
  · exact h1.2 m hm
  · exact h2.2 m hm

theorem tick_clock_loop_wf (maxOut : Nat) :
    ∀ (fuel : Nat) (st : Engine) (msgs : List OutMsg), WellFormedOut maxOut msgs →
      WellFormedOut maxOut (tick_clock_loop maxOut fuel st msgs).2 := by
  intro fuel
  induction fuel with
  | zero => intro st msgs h; exact h
  | succ n ih =>
    intro st msgs h
    simp only [tick_clock_loop]
    split
    · exact ih _ _ (wf_append h (run_step_wf _ _))
    · exact h

theorem tick_internal_loop_wf (maxOut : Nat) :
    ∀ (fuel : Nat) (st : Engine) (msgs : List OutMsg), WellFormedOut maxOut msgs →
      WellFormedOut maxOut (tick_internal_loop maxOut fuel st msgs).2 := by
  intro fuel
  induction fuel with
  | zero => intro st msgs h; exact h
  | succ n ih =>
    intro st msgs h
    simp only [tick_internal_loop]
    split
    · exact ih _ _ (wf_append h (run_step_wf _ _))
    · exact h

theorem tick_flush_block_wf (st : Engine) (maxOut : Nat) (msgs : List OutMsg)
    (h : WellFormedOut maxOut msgs) :
    WellFormedOut maxOut (tick_flush_block st maxOut msgs).2.1 := by
  simp only [tick_flush_block]
  split_ifs <;> first | exact h | exact flush_all_voices_wf _ _ _ h

theorem tick_step_block_wf (st : Engine) (frames : Int) (maxOut : Nat) (msgs : List OutMsg)
    (h : WellFormedOut maxOut msgs) :
    WellFormedOut maxOut (tick_step_block st frames maxOut msgs).2 := by
  simp only [tick_step_block]
  split_ifs <;>
    first
      | exact tick_clock_loop_wf _ _ _ _ h
      | exact tick_internal_loop_wf _ _ _ _ h

theorem tick_after_enforce_wf (st : Engine) (msgs : List OutMsg) (frames : Int)
    (maxOut : Nat) (h : WellFormedOut maxOut msgs) :
    WellFormedOut maxOut (tick_after_enforce st msgs frames maxOut).2 := by
  have hr : ∀ stx msgsx, WellFormedOut maxOut msgsx →
      WellFormedOut maxOut
        (if maxOut ≤ msgsx.length then ((stx, msgsx) : Engine × List OutMsg)
         else if (tick_flush_block stx maxOut msgsx).2.2 = true then
           ((tick_flush_block stx maxOut msgsx).1, (tick_flush_block stx maxOut msgsx).2.1)
         else tick_step_block (tick_flush_block stx maxOut msgsx).1 frames maxOut
           (tick_flush_block stx maxOut msgsx).2.1).2 := by
    intro stx msgsx hx
    split_ifs <;>
      first
        | exact hx
        | exact tick_flush_block_wf _ _ _ hx
        | exact tick_step_block_wf _ _ _ _ (tick_flush_block_wf _ _ _ hx)
  simp only [tick_after_enforce]
  split
  · exact hr _ _ (advance_voice_timers_samples_wf _ _ _ _ h)
  · exact hr _ _ h

theorem tick_after_timing_wf (st : Engine) (frames : Int) (maxOut : Nat) :
    WellFormedOut maxOut (tick_after_timing st frames maxOut).2 := by
  have h0 : WellFormedOut maxOut (enforce_voice_limit st maxOut []).2 :=
    enforce_voice_limit_loop_wf _ _ _ _ (wf_nil _)
  simp only [tick_after_timing]
  split
  · exact h0
  · exact tick_after_enforce_wf _ _ _ _ h0

theorem tick_wf (st0 : Engine) (frames sampleRate : Int) (maxOut : Nat) :
    WellFormedOut maxOut (tick st0 frames sampleRate maxOut).2 := by
  simp only [tick]
  split
  · exact wf_nil _
  · exact tick_after_timing_wf _ _ _

theorem handle_transport_stop_wf (st : Engine) (maxOut : Nat) :
    WellFormedOut maxOut (handle_transport_stop st maxOut).2 := by
  have hcc : GoodMsg ⟨0xB0, 123, 0, 3⟩ := ⟨rfl, Or.inr (Or.inr rfl)⟩
  simp only [handle_transport_stop]
  split_ifs <;>
    first
      | exact flush_all_voices_wf _ _ _ (emit3_wf (wf_nil _) hcc)
      | exact emit3_wf (wf_nil _) hcc
      | exact flush_all_voices_wf _ _ _ (wf_nil _)
      | exact wf_nil _

/-- A per-call output list that is within the cap and whose messages are all
engine-generated, except possibly the single pass-through copy of the input. -/
def WellFormedOrPass (maxOut : Nat) (msg : List Nat) (msgs : List OutMsg) : Prop :=
  msgs.length ≤ maxOut ∧ ∀ m ∈ msgs, GoodMsg m ∨ m = pass_msg msg

theorem wf_orPass {maxOut : Nat} {msg : List Nat} {msgs : List OutMsg}
    (h : WellFormedOut maxOut msgs) : WellFormedOrPass maxOut msg msgs :=
  ⟨h.1, fun m hm => Or.inl (h.2 m hm)⟩

theorem process_note_or_pass_wf (st : Engine) (msg : List Nat) (maxOut : Nat) :
    WellFormedOrPass maxOut msg (process_note_or_pass st msg maxOut).2 := by
  simp only [process_note_or_pass]
  split_ifs <;>
    first
      | exact wf_orPass (run_step_wf _ _)
      | exact wf_orPass (wf_nil _)
      | (refine ⟨by simp; omega, ?_⟩
         intro m hm
         rcases List.mem_singleton.mp hm with rfl
         exact Or.inr rfl)

theorem process_midi_wf (st : Engine) (msg : List Nat) (maxOut : Nat) :
    WellFormedOrPass maxOut msg (process_midi st msg maxOut).2 := by
  simp only [process_midi]
  split
  · exact wf_orPass (wf_nil _)
  · split
    · split
      · exact wf_orPass (wf_nil _)
      · split
        · exact wf_orPass (wf_nil _)
        · split
          · exact wf_orPass (handle_transport_stop_wf _ _)
          · split
            · split
              · exact wf_orPass (wf_nil _)
              · exact wf_orPass (process_clock_tick_wf _ _)
            · exact process_note_or_pass_wf _ _ _
    · split
      · exact wf_orPass (wf_nil _)
      · split
        · exact wf_orPass (handle_transport_stop_wf _ _)
        · exact process_note_or_pass_wf _ _ _

/-- C9 counterexample: processing a transport Stop on a fresh instance emits
a 3-byte message with status `0xB0` (CC 123, all notes off), so not every
output message is a note-on (`0x90`) or note-off (`0x80`). -/
theorem output_shape_counterexample :
    ¬ (∀ m ∈ (process_midi create_instance [0xFC] 8).2,
        m.len = 3 ∧ (m.b0 = 0x90 ∨ m.b0 = 0x80)) := by
  decide

/-- C9 (amended): every message emitted by a `process_midi` call is either a
3-byte engine event with status `0x80` (note-off), `0x90` (note-on) or `0xB0`
(the all-notes-off controller sent on transport stop), or the pass-through
copy of the non-note input message (its original length, truncated to 3
bytes); every message emitted by a `tick` call is a 3-byte `0x80`/`0x90`/
`0xB0` event; and in both calls the number of emitted messages never exceeds
the caller-supplied cap — an event beyond the cap is dropped for that call,
not queued (the engine state holds no output queue). -/
theorem output_shape_amended (st : Engine) (msg : List Nat) (frames sampleRate : Int)
    (maxOut : Nat) :
    ((process_midi st msg maxOut).2.length ≤ maxOut
      ∧ ∀ m ∈ (process_midi st msg maxOut).2,
          (m.len = 3 ∧ (m.b0 = 0x80 ∨ m.b0 = 0x90 ∨ m.b0 = 0xB0)) ∨ m = pass_msg msg)
    ∧ ((tick st frames sampleRate maxOut).2.length ≤ maxOut
      ∧ ∀ m ∈ (tick st frames sampleRate maxOut).2,
          m.len = 3 ∧ (m.b0 = 0x80 ∨ m.b0 = 0x90 ∨ m.b0 = 0xB0)) :=
  ⟨process_midi_wf st msg maxOut, tick_wf st frames sampleRate maxOut⟩

/-- Witness for `output_shape_amended`: the stop message of the
counterexample, whose single output is covered by the amended shape. -/
theorem output_shape_amended_witness :
    (⟨0xB0, 123, 0, 3⟩ : OutMsg) ∈ (process_midi create_instance [0xFC] 8).2
    ∧ (((⟨0xB0, 123, 0, 3⟩ : OutMsg).len = 3
        ∧ ((0xB0 : Nat) = 0x80 ∨ (0xB0 : Nat) = 0x90 ∨ (0xB0 : Nat) = 0xB0))
       ∨ (⟨0xB0, 123, 0, 3⟩ : OutMsg) = pass_msg [0xFC]) :=
  ⟨by decide, (output_shape_amended create_instance [0xFC] 0 0 8).1.2 _ (by decide)⟩

theorem flush_all_voices_complete (maxOut : Nat) :
    ∀ (vs : List Voice) (msgs : List OutMsg), msgs.length + vs.length ≤ maxOut →
      flush_all_voices maxOut vs msgs = ([], msgs ++ vs.map (fun v => offMsg v.note)) := by
  intro vs
  induction vs with
  | nil => intro msgs _; simp [flush_all_voices]
  | cons v rest ih =>
    intro msgs h
    have hlt : ¬ msgs.length ≥ maxOut := by simp at h ⊢; omega
    simp only [flush_all_voices, emit3, if_neg hlt]
    rw [ih (msgs ++ [offMsg v.note]) (by simp at h ⊢; omega)]
    simp

theorem filter_offs (l : List Voice) :
    ((l.map (fun v => offMsg v.note)).filter (fun m => m.b0 == 0x80))
      = l.map (fun v => offMsg v.note) := by
  induction l with
  | nil => rfl
  | cons v rest ih => simp [offMsg, ih]

/-- C5: a transport Stop while `K` voices are live emits (after the CC-123
all-notes-off message) exactly `K` note-off events, one per live voice in
order — so each live pitch once, given the per-pitch voice-dedup invariant —
and leaves the voice count at 0.  The output buffer must have room
(`maxOut ≥ K + 1`); a smaller cap truncates, as claimed elsewhere. -/
theorem transport_stop_flush (st : Engine) (maxOut : Nat)
    (h : st.voices.length + 1 ≤ maxOut) :
    (handle_transport_stop st maxOut).2
      = ⟨0xB0, 123, 0, 3⟩ :: st.voices.map (fun v => offMsg v.note)
    ∧ ((handle_transport_stop st maxOut).2.filter (fun m => m.b0 == 0x80)).length
        = st.voices.length
    ∧ (handle_transport_stop st maxOut).1.voices = [] := by
  have hout : 0 < maxOut := by omega
  have hcc : (if 0 < maxOut then (emit3 maxOut ([] : List OutMsg) ⟨0xB0, 123, 0, 3⟩).1 else [])
      = [⟨0xB0, 123, 0, 3⟩] := by
    rw [if_pos hout]
    simp only [emit3]
    rw [if_neg (by simp; omega)]
    rfl
  have hmain : (handle_transport_stop st maxOut).2
      = ⟨0xB0, 123, 0, 3⟩ :: st.voices.map (fun v => offMsg v.note)
      ∧ (handle_transport_stop st maxOut).1.voices = [] := by
    simp only [handle_transport_stop, hcc]
    by_cases hv : st.voices = []
    · simp [hv, reset_phrase, reset_lane_runtime, clear_active]
    · have hlen0 : 0 < st.voices.length := List.length_pos.mpr hv
      have hcond : 0 < st.voices.length ∧
          ([(⟨0xB0, 123, 0, 3⟩ : OutMsg)]).length < maxOut := ⟨hlen0, by simp; omega⟩
      rw [if_pos hcond]
      rw [flush_all_voices_complete maxOut st.voices _ (by simp; omega)]
      simp [reset_phrase, reset_lane_runtime, clear_active]
  refine ⟨hmain.1, ?_, hmain.2⟩
  rw [hmain.1]
  have : ((⟨0xB0, 123, 0, 3⟩ : OutMsg) :: st.voices.map (fun v => offMsg v.note)).filter
      (fun m => m.b0 == 0x80) = st.voices.map (fun v => offMsg v.note) := by
    simp only [List.filter_cons]
    rw [filter_offs]
    norm_num
  rw [this, List.length_map]

/-- A concrete state with two live voices, used by the witness of
`transport_stop_flush`. -/
def stop_test_state : Engine :=
  { create_instance with voices := [⟨60, 0, 5⟩, ⟨64, 0, 9⟩] }

/-- Witness for `transport_stop_flush`: stopping with two live voices emits
exactly two note-offs and empties the voice list. -/
theorem transport_stop_flush_witness :
    stop_test_state.voices.length + 1 ≤ 8
    ∧ ((handle_transport_stop stop_test_state 8).2.filter (fun m => m.b0 == 0x80)).length = 2
    ∧ (handle_transport_stop stop_test_state 8).1.voices = [] :=
  ⟨by decide,
   by rw [(transport_stop_flush stop_test_state 8 (by decide)).2.1]; decide,
   (transport_stop_flush stop_test_state 8 (by decide)).2.2⟩

theorem kill_voice_notes_not_mem (p : Nat) (maxOut : Nat) :
    ∀ (vs : List Voice) (msgs : List OutMsg), p ∉ vs.map Voice.note →
      kill_voice_notes p maxOut vs msgs = (vs, msgs) := by
  intro vs
  induction vs with
  | nil => intro msgs _; rfl
  | cons v rest ih =>
    intro msgs hmem
    simp only [List.map_cons, List.mem_cons, not_or] at hmem
    simp only [kill_voice_notes]
    rw [if_neg (fun hc => hmem.1 hc.symm), ih _ hmem.2]

theorem kill_voice_notes_all (p : Nat) (maxOut : Nat) :
    ∀ (vs : List Voice) (msgs : List OutMsg),
      msgs.length + (vs.filter (fun v => v.note == p)).length ≤ maxOut →
      kill_voice_notes p maxOut vs msgs
        = (vs.filter (fun v => !(v.note == p)),
           msgs ++ (vs.filter (fun v => v.note == p)).map (fun v => offMsg v.note)) := by
  intro vs
  induction vs with
  | nil => intro msgs _; simp [kill_voice_notes]
  | cons v rest ih =>
    intro msgs h
    by_cases hv : v.note = p
    · have hfc : (v :: rest).filter (fun v => v.note == p)
          = v :: rest.filter (fun v => v.note == p) := by
        simp [List.filter_cons, hv]
      rw [hfc] at h
      simp only [List.length_cons] at h
      have hemit : emit3 maxOut msgs (offMsg v.note) = (msgs ++ [offMsg v.note], true) := by
        simp only [emit3]
        rw [if_neg (by omega)]
      have hstep : kill_voice_notes p maxOut (v :: rest) msgs
          = kill_voice_notes p maxOut rest (msgs ++ [offMsg v.note]) := by
        simp only [kill_voice_notes, if_pos hv]
        rw [hemit]
        rfl
      rw [hstep, ih (msgs ++ [offMsg v.note]) (by simp; omega), hfc]
      simp [List.filter_cons, hv, List.append_assoc]
    · simp only [kill_voice_notes, if_neg hv]
      have hfc : (v :: rest).filter (fun v => v.note == p)
          = rest.filter (fun v => v.note == p) := by
        simp [List.filter_cons, hv]
      rw [hfc] at h
      rw [ih msgs h]
      simp [List.filter_cons, hv, hfc]

theorem filter_note_length_split (p : Nat) (vs : List Voice) :
    (vs.filter (fun v => !(v.note == p))).length
      + (vs.filter (fun v => v.note == p)).length = vs.length := by
  induction vs with
  | nil => rfl
  | cons v rest ih =>
    by_cases hv : v.note = p <;> simp [List.filter_cons, hv] <;> omega

theorem nodup_filter_note_singleton (p : Nat) :
    ∀ vs : List Voice, (vs.map Voice.note).Nodup → p ∈ vs.map Voice.note →
      ∃ v : Voice, vs.filter (fun v => v.note == p) = [v] ∧ v.note = p := by
  intro vs
  induction vs with
  | nil => intro _ hm; simp at hm
  | cons v rest ih =>
    intro hnd hm
    simp only [List.map_cons, List.nodup_cons] at hnd
    by_cases hv : v.note = p
    · refine ⟨v, ?_, hv⟩
      have hrest : rest.filter (fun v => v.note == p) = [] := by
        rw [List.filter_eq_nil_iff]
        intro w hw
        simp only [beq_iff_eq]
        intro hc
        apply hnd.1
        have hmem2 : w.note ∈ List.map Voice.note rest := List.mem_map_of_mem Voice.note hw
        rwa [hc, ← hv] at hmem2
      simp [List.filter_cons, hv, hrest]
    · have hm' : p ∈ rest.map Voice.note := by
        rcases List.mem_cons.mp hm with h1 | h1
        · exact absurd h1.symm hv
        · exact h1
      rcases ih hnd.2 hm' with ⟨w, hw1, hw2⟩
      exact ⟨w, by simp [List.filter_cons, hv, hw1], hw2⟩

theorem map_note_filter_ne (p : Nat) (vs : List Voice) :
    (vs.filter (fun v => !(v.note == p))).map Voice.note
      = (vs.map Voice.note).filter (fun x => !(x == p)) := by
  induction vs with
  | nil => rfl
  | cons v rest ih =>
    by_cases hv : v.note = p <;> simp [List.filter_cons, hv, ih]

theorem evict_voices_noop {limit : Int} {maxOut : Nat} {vs : List Voice} {msgs : List OutMsg}
    (h : (vs.length : Int) < limit) :
    evict_voices limit maxOut vs msgs = (vs, msgs, true) := by
  cases vs with
  | nil => rfl
  | cons v rest => simp only [evict_voices]; rw [if_pos h]

/-- C3: if the live voices have pairwise-distinct pitches (the invariant the
second half re-establishes) and a voice with pitch `p` is live, scheduling a
new note at `p` first emits exactly one note-off — the retired prior voice —
immediately before the new note-on, and the resulting voice list again has
at most one voice per pitch.  Needs two slots of buffer room and the voice
count within the limit, both invariants of the caller. -/
theorem schedule_same_pitch_dedup (st : Engine) (p : Nat) (vel gatePct : Int) (maxOut : Nat)
    (hnd : (st.voices.map Voice.note).Nodup)
    (hp : p ∈ st.voices.map Voice.note)
    (hcap : (st.voices.length : Int) ≤ clamp_int st.max_voices 1 64)
    (hout : 2 ≤ maxOut) (hple : p ≤ 127) :
    (∃ rest, (schedule_note st (p : Int) vel gatePct maxOut []).2.1
        = offMsg p :: onMsg p (clamp_int vel 1 127).toNat :: rest)
    ∧ ((schedule_note st (p : Int) vel gatePct maxOut []).1.voices.map Voice.note).Nodup := by
  have hnr : ¬ ((p : Int) < 0 ∨ (p : Int) > 127) := by simp; omega
  obtain ⟨w, hw, hwp⟩ := nodup_filter_note_singleton p st.voices hnd hp
  have hkill := kill_voice_notes_all p maxOut st.voices [] (by rw [hw]; simp; omega)
  rw [hw] at hkill
  simp only [List.map_cons, List.map_nil, List.nil_append, hwp] at hkill
  have hsplit := filter_note_length_split p st.voices
  rw [hw] at hsplit
  simp only [List.length_cons, List.length_nil] at hsplit
  have hlim : (1 : Int) ≤ clamp_int st.max_voices 1 64 := by
    unfold clamp_int; split_ifs <;> omega
  have hlt : (((st.voices.filter (fun v => !(v.note == p))).length : Int))
      < clamp_int st.max_voices 1 64 := by
    have : (st.voices.filter (fun v => !(v.note == p))).length + 1 = st.voices.length := by
      omega
    omega
  have hemit : emit3 maxOut [offMsg p] (onMsg p (clamp_int vel 1 127).toNat)
      = ([offMsg p, onMsg p (clamp_int vel 1 127).toNat], true) := by
    simp only [emit3]
    rw [if_neg (by simp; omega)]
    rfl
  have hnd2 : ((st.voices.filter (fun v => !(v.note == p))).map Voice.note).Nodup := by
    rw [map_note_filter_ne]
    exact hnd.filter _
  have hpnot : p ∉ (st.voices.filter (fun v => !(v.note == p))).map Voice.note := by
    rw [map_note_filter_ne]
    intro hc
    have := List.of_mem_filter hc
    simp at this
  have hc1 : ¬ ¬ ((true : Bool) = true) := by simp
  simp only [schedule_note]
  rw [if_neg hnr]
  simp only [Int.toNat_natCast]
  rw [hkill, evict_voices_noop hlt]
  dsimp only
  rw [if_neg hc1, hemit]
  dsimp only
  rw [if_neg hc1]
  split_ifs with hg
  · constructor
    · simp only [emit3]
      split_ifs <;> exact ⟨_, rfl⟩
    · exact hnd2
  · refine ⟨⟨[], rfl⟩, ?_⟩
    simp only [voice_add]
    split_ifs <;>
      first
        | exact hnd2
        | (simp only [List.map_append, List.map_cons, List.map_nil]
           simp [List.nodup_append, hnd2, hpnot])

/-- A concrete state with one live voice at pitch 60, used by the witness of
`schedule_same_pitch_dedup`. -/
def dedup_test_state : Engine :=
  { create_instance with voices := [⟨60, 0, 5⟩] }

/-- Witness for `schedule_same_pitch_dedup`: retriggering pitch 60 while it
is sounding emits exactly `[note-off 60, note-on 60]` and keeps pitches
unique. -/
theorem schedule_same_pitch_dedup_witness :
    (dedup_test_state.voices.map Voice.note).Nodup
    ∧ 60 ∈ dedup_test_state.voices.map Voice.note
    ∧ (∃ rest, (schedule_note dedup_test_state (60 : Int) 100 80 8 []).2.1
        = offMsg 60 :: onMsg 60 100 :: rest)
    ∧ ((schedule_note dedup_test_state (60 : Int) 100 80 8 []).1.voices.map Voice.note).Nodup :=
  ⟨by decide, by decide,
   (schedule_same_pitch_dedup dedup_test_state 60 100 80 8 (by decide) (by decide)
      (by decide) (by decide) (by decide)).1,
   (schedule_same_pitch_dedup dedup_test_state 60 100 80 8 (by decide) (by decide)
      (by decide) (by decide) (by decide)).2⟩

theorem kill_voice_notes_len (p : Nat) (maxOut : Nat) :
    ∀ (vs : List Voice) (msgs : List OutMsg),
      (kill_voice_notes p maxOut vs msgs).1.length ≤ vs.length := by
  intro vs
  induction vs with
  | nil => intro msgs; simp [kill_voice_notes]
  | cons v rest ih =>
    intro msgs
    simp only [kill_voice_notes]
    split_ifs with h1 h2
    · exact Nat.le_succ_of_le (ih _)
    · simp
    · simpa using Nat.succ_le_succ (ih msgs)

theorem evict_voices_ok_lt (limit : Int) (maxOut : Nat) (hlim : 1 ≤ limit) :
    ∀ (vs : List Voice) (msgs : List OutMsg),
      (evict_voices limit maxOut vs msgs).2.2 = true →
      ((evict_voices limit maxOut vs msgs).1.length : Int) < limit := by
  intro vs
  induction vs with
  | nil => intro msgs _; simp [evict_voices]; omega
  | cons v rest ih =>
    intro msgs hok
    simp only [evict_voices] at hok ⊢
    split_ifs at hok ⊢ with h1 h2
    · simpa using h1
    · exact ih _ hok

theorem evict_voices_len (limit : Int) (maxOut : Nat) :
    ∀ (vs : List Voice) (msgs : List OutMsg),
      (evict_voices limit maxOut vs msgs).1.length ≤ vs.length := by
  intro vs
  induction vs with
  | nil => intro msgs; simp [evict_voices]
  | cons v rest ih =>
    intro msgs
    simp only [evict_voices]
    split_ifs with h1 h2
    · simp
    · exact Nat.le_succ_of_le (ih _)
    · simp

theorem voice_add_len (st : Engine) (vs : List Voice) (n : Nat) (g : Int) :
    (voice_add st vs n g).length ≤ vs.length + 1 := by
  simp only [voice_add]
  split_ifs <;> simp

/-- C4: the scheduler never lets the live-voice count exceed the configured
maximum — scheduling from a state within the limit stays within the limit —
and when the count is exactly at the limit and a fresh pitch is scheduled,
the oldest voice (array index 0) is retired first: the emitted messages are
its note-off followed by the new note-on (FIFO eviction).  The eviction
shape needs two slots of buffer room. -/
theorem schedule_voice_cap (st : Engine) (note vel gatePct : Int) (maxOut : Nat)
    (p : Nat) (v0 : Voice) (rest : List Voice) :
    ((st.voices.length : Int) ≤ clamp_int st.max_voices 1 64 →
      ((schedule_note st note vel gatePct maxOut []).1.voices.length : Int)
        ≤ clamp_int st.max_voices 1 64)
    ∧ (st.voices = v0 :: rest →
       (st.voices.length : Int) = clamp_int st.max_voices 1 64 →
       p ∉ st.voices.map Voice.note → 2 ≤ maxOut → p ≤ 127 →
       ∃ tail, (schedule_note st (p : Int) vel gatePct maxOut []).2.1
         = offMsg v0.note :: onMsg p (clamp_int vel 1 127).toNat :: tail) := by
  have hlim : (1 : Int) ≤ clamp_int st.max_voices 1 64 := by
    unfold clamp_int; split_ifs <;> omega
  constructor
  · intro hcap
    have hkl := kill_voice_notes_len note.toNat maxOut st.voices []
    have hel := evict_voices_len (clamp_int st.max_voices 1 64) maxOut
        (kill_voice_notes note.toNat maxOut st.voices []).1
        (kill_voice_notes note.toNat maxOut st.voices []).2
    have hook := evict_voices_ok_lt (clamp_int st.max_voices 1 64) maxOut hlim
        (kill_voice_notes note.toNat maxOut st.voices []).1
        (kill_voice_notes note.toNat maxOut st.voices []).2
    have hval := voice_add_len st
        (evict_voices (clamp_int st.max_voices 1 64) maxOut
          (kill_voice_notes note.toNat maxOut st.voices []).1
          (kill_voice_notes note.toNat maxOut st.voices []).2).1
        note.toNat (clamp_int gatePct 0 1600)
    simp only [schedule_note]
    split_ifs with h1 h2 h3 h4 <;>
      first
        | simpa using hcap
        | (dsimp only; omega)
        | (have hok2 := hook (by assumption); dsimp only; omega)
  · intro hvs hfull hnot hout hple
    have hnr : ¬ ((p : Int) < 0 ∨ (p : Int) > 127) := by simp; omega
    have hc1 : ¬ ¬ ((true : Bool) = true) := by simp
    rw [hvs] at hfull
    simp only [List.length_cons] at hfull
    have hemit0 : emit3 maxOut ([] : List OutMsg) (offMsg v0.note)
        = ([offMsg v0.note], true) := by
      simp only [emit3]
      rw [if_neg (by simp; omega)]
      rfl
    have hev : evict_voices (clamp_int st.max_voices 1 64) maxOut st.voices []
        = (rest, [offMsg v0.note], true) := by
      rw [hvs]
      simp only [evict_voices]
      rw [if_neg (by simp; omega), hemit0]
      dsimp only
      rw [if_pos rfl]
      exact evict_voices_noop (by omega)
    have hemit1 : emit3 maxOut [offMsg v0.note] (onMsg p (clamp_int vel 1 127).toNat)
        = ([offMsg v0.note, onMsg p (clamp_int vel 1 127).toNat], true) := by
      simp only [emit3]
      rw [if_neg (by simp; omega)]
      rfl
    simp only [schedule_note]
    rw [if_neg hnr]
    simp only [Int.toNat_natCast]
    rw [kill_voice_notes_not_mem p maxOut st.voices [] hnot, hev]
    dsimp only
    rw [if_neg hc1, hemit1]
    dsimp only
    rw [if_neg hc1]
    split_ifs with hg
    · simp only [emit3]
      split_ifs <;> exact ⟨_, rfl⟩
    · exact ⟨[], rfl⟩

/-- A concrete state at its voice limit (two voices, `max_voices = 2`), used
by the witness of `schedule_voice_cap`. -/
def cap_test_state : Engine :=
  { create_instance with max_voices := 2, voices := [⟨60, 0, 5⟩, ⟨64, 0, 9⟩] }

/-- Witness for `schedule_voice_cap`: at the limit, scheduling a third
distinct pitch retires the oldest voice (pitch 60) first and stays within
the limit. -/
theorem schedule_voice_cap_witness :
    (cap_test_state.voices.length : Int) = clamp_int cap_test_state.max_voices 1 64
    ∧ 67 ∉ cap_test_state.voices.map Voice.note
    ∧ ((schedule_note cap_test_state (67 : Int) 100 80 8 []).1.voices.length : Int)
        ≤ clamp_int cap_test_state.max_voices 1 64
    ∧ (∃ tail, (schedule_note cap_test_state (67 : Int) 100 80 8 []).2.1
        = offMsg 60 :: onMsg 67 100 :: tail) :=
  ⟨by decide, by decide,
   (schedule_voice_cap cap_test_state 67 100 80 8 67 ⟨60, 0, 5⟩ [⟨64, 0, 9⟩]).1 (by decide),
   (schedule_voice_cap cap_test_state 67 100 80 8 67 ⟨60, 0, 5⟩ [⟨64, 0, 9⟩]).2
     (by decide) (by decide) (by decide) (by decide) (by decide)⟩

/-- C6: in restart retrigger mode, a note-on that takes the live-note count
from zero to non-zero (held register mode, non-latch, so live notes are the
physical notes and the phrase is not yet running) resets every lane's local
step cursor to 0 at once and marks the phrase running — so the next due step
evaluates every lane's Euclidean pattern at its step-0 position, whatever
the cursors' prior phase.  (The C code performs the reset inside
`update_phrase_running` at the note-on itself; the cursor is only read at
the next due step, so this is the claim's observable behaviour.) -/
theorem restart_retrigger_resets_cursors (st : Engine) (n v : Nat)
    (hlat : st.latch = false)
    (hreg : st.register_mode = REG_HELD)
    (hret : st.retrigger_mode = RETRIG_RESTART)
    (hphys : st.physical_notes = [])
    (hpr : st.phrase_running = false) :
    (∀ i : Fin 4, ((note_on st n v).lanes i).step_cursor = 0)
    ∧ (note_on st n v).phrase_running = true := by
  have h1 : arr_add_sorted st.physical_notes n 16 = [n] := by
    rw [hphys]; rfl
  constructor
  · intro i
    simp [note_on, update_phrase_running, reset_phrase, reset_lane_runtime,
          live_note_count, h1, hlat, hreg, hret, hpr]
  · simp [note_on, update_phrase_running, reset_phrase, reset_lane_runtime,
          live_note_count, h1, hlat, hreg, hret, hpr]

/-- A concrete non-running restart-mode state whose lane cursors are out of
phase, used by the witness of `restart_retrigger_resets_cursors`. -/
def restart_test_state : Engine :=
  { create_instance with
      lanes := fun i => { create_instance.lanes i with step_cursor := 7 + (i : Int) } }

/-- Witness for `restart_retrigger_resets_cursors`: the first note-on zeroes
all four cursors (previously 7,8,9,10) and starts the phrase. -/
theorem restart_retrigger_resets_cursors_witness :
    restart_test_state.latch = false
    ∧ restart_test_state.phrase_running = false
    ∧ (∀ i : Fin 4, ((note_on restart_test_state 60 100).lanes i).step_cursor = 0)
    ∧ (note_on restart_test_state 60 100).phrase_running = true :=
  ⟨by decide, by decide,
   (restart_retrigger_resets_cursors restart_test_state 60 100 (by decide) (by decide)
      (by decide) (by decide) (by decide)).1,
   (restart_retrigger_resets_cursors restart_test_state 60 100 (by decide) (by decide)
      (by decide) (by decide) (by decide)).2⟩

theorem update_phrase_running_sync (st : Engine) :
    (update_phrase_running st).sync_mode = st.sync_mode := by
  simp only [update_phrase_running, reset_phrase, reset_lane_runtime]
  split_ifs <;> rfl

theorem update_phrase_running_register (st : Engine) :
    (update_phrase_running st).register_mode = st.register_mode := by
  simp only [update_phrase_running, reset_phrase, reset_lane_runtime]
  split_ifs <;> rfl

theorem update_phrase_running_mta (st : Engine) :
    (update_phrase_running st).midi_transport_active = st.midi_transport_active := by
  simp only [update_phrase_running, reset_phrase, reset_lane_runtime]
  split_ifs <;> rfl

theorem update_phrase_running_clockrun (st : Engine) :
    (update_phrase_running st).clock_running = st.clock_running := by
  simp only [update_phrase_running, reset_phrase, reset_lane_runtime]
  split_ifs <;> rfl

theorem as_played_add_sync (st : Engine) (n : Nat) :
    (as_played_add st n).sync_mode = st.sync_mode := by
  simp only [as_played_add]
  split_ifs <;> rfl

theorem as_played_add_register (st : Engine) (n : Nat) :
    (as_played_add st n).register_mode = st.register_mode := by
  simp only [as_played_add]
  split_ifs <;> rfl

theorem as_played_add_mta (st : Engine) (n : Nat) :
    (as_played_add st n).midi_transport_active = st.midi_transport_active := by
  simp only [as_played_add]
  split_ifs <;> rfl

theorem as_played_add_clockrun (st : Engine) (n : Nat) :
    (as_played_add st n).clock_running = st.clock_running := by
  simp only [as_played_add]
  split_ifs <;> rfl

theorem note_on_sync (st : Engine) (n v : Nat) :
    (note_on st n v).sync_mode = st.sync_mode := by
  simp only [note_on, clear_active, reset_phrase, reset_lane_runtime]
  rw [update_phrase_running_sync]
  split_ifs <;> first | rfl | (rw [as_played_add_sync])

theorem note_on_register (st : Engine) (n v : Nat) :
    (note_on st n v).register_mode = st.register_mode := by
  simp only [note_on, clear_active, reset_phrase, reset_lane_runtime]
  rw [update_phrase_running_register]
  split_ifs <;> first | rfl | (rw [as_played_add_register])

theorem note_on_mta (st : Engine) (n v : Nat) :
    (note_on st n v).midi_transport_active = st.midi_transport_active := by
  simp only [note_on, clear_active, reset_phrase, reset_lane_runtime]
  rw [update_phrase_running_mta]
  split_ifs <;> first | rfl | (rw [as_played_add_mta])

theorem note_on_clockrun (st : Engine) (n v : Nat) :
    (note_on st n v).clock_running = st.clock_running := by
  simp only [note_on, clear_active, reset_phrase, reset_lane_runtime]
  rw [update_phrase_running_clockrun]
  split_ifs <;> first | rfl | (rw [as_played_add_clockrun])

/-- C10: in held register mode, when a note-on takes the live-note count
from zero to non-zero while MIDI transport has not been marked active (and,
in external-clock mode, the clock is running), `process_midi` itself runs
one step immediately: its output is exactly the output of `run_step` on the
post-note-on state, in the same call. -/
theorem first_note_runs_step (st : Engine) (n v : Nat) (maxOut : Nat)
    (hreg : st.register_mode = REG_HELD)
    (hmta : st.midi_transport_active = false)
    (hlive0 : live_note_count st = 0)
    (hlive1 : 0 < live_note_count (note_on st n v))
    (hv : 0 < v)
    (hout : 0 < maxOut) :
    (st.sync_mode = SYNC_INTERNAL →
      (process_midi st [0x90, n, v] maxOut).2 = (run_step (note_on st n v) maxOut).2)
    ∧ (st.sync_mode = SYNC_CLOCK → st.clock_running = true →
      process_midi st [0x90, n, v] maxOut = run_step (note_on st n v) maxOut) := by
  have hg0 : ([0x90, n, v] : List Nat).getD 0 0 = 0x90 := rfl
  have hg1 : ([0x90, n, v] : List Nat).getD 1 0 = n := rfl
  have hg2 : ([0x90, n, v] : List Nat).getD 2 0 = v := rfl
  have hmt : ((0x90 : Nat) &&& 0xF0) = 0x90 := by decide
  constructor
  · intro hsync
    have hnop : (process_note_or_pass st [0x90, n, v] maxOut).2
        = (run_step (note_on st n v) maxOut).2 := by
      have hcneg : ¬ ((note_on st n v).sync_mode = SYNC_CLOCK
          ∧ (note_on st n v).clock_running = true
          ∧ (note_on st n v).midi_transport_active = false
          ∧ (note_on st n v).register_mode = REG_HELD
          ∧ live_note_count st = 0
          ∧ 0 < live_note_count (note_on st n v) ∧ 0 < maxOut) := by
        rintro ⟨hc, -⟩
        rw [note_on_sync, hsync] at hc
        simp at hc
      have hcpos : (note_on st n v).sync_mode = SYNC_INTERNAL
          ∧ (note_on st n v).register_mode = REG_HELD
          ∧ (note_on st n v).midi_transport_active = false
          ∧ live_note_count st = 0
          ∧ 0 < live_note_count (note_on st n v) ∧ 0 < maxOut :=
        ⟨by rw [note_on_sync]; exact hsync, by rw [note_on_register]; exact hreg,
         by rw [note_on_mta]; exact hmta, hlive0, hlive1, hout⟩
      simp only [process_note_or_pass, hg0, hg1, hg2, hmt]
      rw [if_pos (by simp), if_pos (by simp [hv]), if_neg hcneg, if_pos hcpos]
    simp only [process_midi, hg0]
    rw [if_neg (by simp), if_neg (by rw [hsync]; simp), if_neg (by simp), if_neg (by simp)]
    exact hnop
  · intro hsync hclk
    have hnop : process_note_or_pass st [0x90, n, v] maxOut
        = run_step (note_on st n v) maxOut := by
      have hcpos : (note_on st n v).sync_mode = SYNC_CLOCK
          ∧ (note_on st n v).clock_running = true
          ∧ (note_on st n v).midi_transport_active = false
          ∧ (note_on st n v).register_mode = REG_HELD
          ∧ live_note_count st = 0
          ∧ 0 < live_note_count (note_on st n v) ∧ 0 < maxOut :=
        ⟨by rw [note_on_sync]; exact hsync, by rw [note_on_clockrun]; exact hclk,
         by rw [note_on_mta]; exact hmta, by rw [note_on_register]; exact hreg,
         hlive0, hlive1, hout⟩
      simp only [process_note_or_pass, hg0, hg1, hg2, hmt]
      rw [if_pos (by simp), if_pos (by simp [hv]), if_pos hcpos]
    simp only [process_midi, hg0]
    rw [if_neg (by simp), if_pos hsync, if_neg (by simp), if_neg (by simp),
        if_neg (by simp), if_neg (by simp)]
    exact hnop

/-- Witness for `first_note_runs_step`: the very first note-on into a fresh
instance (internal clock, held register) emits its note-on output in the
same `process_midi` call. -/
theorem first_note_runs_step_witness :
    create_instance.register_mode = REG_HELD
    ∧ live_note_count create_instance = 0
    ∧ 0 < live_note_count (note_on create_instance 60 100)
    ∧ (process_midi create_instance [0x90, 60, 100] 8).2
        = (run_step (note_on create_instance 60 100) 8).2
    ∧ (process_midi create_instance [0x90, 60, 100] 8).2 = [onMsg 60 100] :=
  ⟨by decide, by decide, by decide,
   (first_note_runs_step create_instance 60 100 8 (by decide) (by decide) (by decide)
      (by decide) (by decide) (by decide)).1 rfl,
   by decide⟩
